import Mathlib

set_option maxHeartbeats 1000000

/-!
Verification of the procedural structure generator and particle flow
animation system of the neural-network visualization.

The embedding follows the two source files named by the claims:

* src/js/core/ParticleSystem.js  (class ParticleSystem): flow particles,
  burst pool, trails, and the per-frame updates.
* src/js/core/PostProcessing.js  (class NeuralNetwork, second half of the
  file): octagon boundary, internal node/edge generation, flow path
  derivation, pulse waves.

JavaScript numbers are modelled as rationals where only field arithmetic
and comparisons occur, and as real numbers where the source uses
trigonometry or square roots.  Math.random() is modelled as an explicit
stream of draws (a function from a call counter to a number), threaded
through the definitions in exactly the order the source consumes the
draws.  Library calls with fixed semantics (THREE.CatmullRomCurve3,
THREE.Color().setHSL, Math.sin applied to rational arguments) are
modelled by the functions bundled in JSEnv below; where a claim does not
depend on their values they are opaque parameters.
-/

namespace NNViz

/-- A 3-component vector over the rationals (positions, velocities and
colors of particle records, which the source stores in Float32Arrays). -/
structure Vec3 where
  x : ℚ
  y : ℚ
  z : ℚ
deriving DecidableEq, Repr

/-- The ambient JavaScript environment of the particle system: the
Math.random() stream indexed by call counter, the trigonometric
functions, pi, and THREE.Color().setHSL (hue, saturation, lightness to
rgb).  The claims proved below do not depend on the values of these
functions, so they are left opaque. -/
structure JSEnv where
  rand : ℕ → ℚ
  jsin : ℚ → ℚ
  jcos : ℚ → ℚ
  jacos : ℚ → ℚ
  jpi : ℚ
  hsl : ℚ → ℚ → ℚ → Vec3

/-- A concrete environment used by witnesses: every random draw is 1/2,
the opaque functions are constantly zero. -/
def env0 : JSEnv :=
  { rand := fun _ => 1/2
    jsin := fun _ => 0
    jcos := fun _ => 0
    jacos := fun _ => 0
    jpi := 0
    hsl := fun _ _ _ => ⟨0, 0, 0⟩ }

/-! ## Burst pool (ParticleSystem.createBurstSystem / triggerBurst /
updateBurstParticles)

The burst pool is a set of parallel arrays of fixed length (500 at
construction); a particle is Active when its lifetime entry is positive
and Inactive when it is ≤ 0.  We model the pool as a list of records,
one per index. -/

/-- One slot of the burst pool: position, velocity, color, size,
lifetime and particle type (0 spark, 1 glow, 2 trail). -/
structure BurstParticle where
  position : Vec3
  velocity : Vec3
  color : Vec3
  size : ℚ
  lifetime : ℚ
  ptype : ℕ
deriving DecidableEq, Repr

/-- The burst slot as initialized by createBurstSystem (lines 217-234):
everything zeroed except color (white) and a random type. -/
def initBurstParticle (env : JSEnv) (i : ℕ) : BurstParticle :=
  { position := ⟨0, 0, 0⟩
    velocity := ⟨0, 0, 0⟩
    color := ⟨1, 1, 1⟩
    size := 0
    lifetime := 0
    ptype := (⌊(env.rand i) * 3⌋).toNat }

/-- The burst pool built by createBurstSystem: burstCount = 500 slots. -/
def createBurstSystem (env : JSEnv) : List BurstParticle :=
  (List.range 500).map (initBurstParticle env)

/-- Activation of one inactive slot inside triggerBurst (lines 556-584).
The six Math.random() draws are consumed in source order: theta, phi,
speed, hue, size, type.  k is the position of the first draw in the
stream. -/
def activateBurst (env : JSEnv) (k : ℕ) (origin : Vec3) (p : BurstParticle) :
    BurstParticle :=
  let theta := env.rand k * env.jpi * 2
  let phi := env.jacos (env.rand (k+1) * 2 - 1)
  let speed := 2 + env.rand (k+2) * 3
  let hue := 1/2 + env.rand (k+3) * (1/10)
  { position := origin
    velocity := ⟨env.jsin phi * env.jcos theta * speed,
                 env.jsin phi * env.jsin theta * speed,
                 env.jcos phi * speed * (1/2)⟩
    color := env.hsl hue 1 (3/5)
    size := 5 + env.rand (k+4) * 10
    lifetime := 1
    ptype := (⌊(env.rand (k+5)) * 3⌋).toNat }

/-- The scan loop of triggerBurst (lines 555-586): walk the pool in index
order, activating inactive slots (lifetime ≤ 0) until burstSize = 30
slots have been activated; the loop condition i < count AND count < 30
stops the scan early once 30 slots were found.  k is the Math.random()
cursor, cnt the number of slots activated so far. -/
def triggerBurstGo (env : JSEnv) (origin : Vec3) :
    List BurstParticle → ℕ → ℕ → List BurstParticle
  | [], _, _ => []
  | p :: rest, k, cnt =>
    if cnt < 30 then
      if p.lifetime ≤ 0 then
        activateBurst env k origin p :: triggerBurstGo env origin rest (k + 6) (cnt + 1)
      else
        p :: triggerBurstGo env origin rest k cnt
    else
      p :: rest

/-- ParticleSystem.triggerBurst(position) (lines 541-594). -/
def triggerBurst (env : JSEnv) (origin : Vec3) (pool : List BurstParticle) :
    List BurstParticle :=
  triggerBurstGo env origin pool 0 0

/-- Number of Active slots (lifetime > 0). -/
def countActive (pool : List BurstParticle) : ℕ :=
  (pool.filter (fun p => 0 < p.lifetime)).length

/-- Number of Inactive slots (lifetime ≤ 0), as tested by triggerBurst. -/
def countInactive (pool : List BurstParticle) : ℕ :=
  (pool.filter (fun p => p.lifetime ≤ 0)).length

/-- ParticleSystem.updateBurstParticles (lines 743-756), one slot:
active slots decay by deltaTime * 2 and are clamped at 0; inactive
slots are not touched. -/
def updateBurstParticle (dt : ℚ) (p : BurstParticle) : BurstParticle :=
  if 0 < p.lifetime then
    let lt := p.lifetime - dt * 2
    { p with lifetime := if lt < 0 then 0 else lt }
  else p

/-- ParticleSystem.updateBurstParticles (lines 743-756). -/
def updateBurstParticles (dt : ℚ) (pool : List BurstParticle) : List BurstParticle :=
  pool.map (updateBurstParticle dt)

/-! ### Pool lemmas -/

theorem triggerBurstGo_length (env : JSEnv) (origin : Vec3) :
    ∀ (l : List BurstParticle) (k cnt : ℕ),
      (triggerBurstGo env origin l k cnt).length = l.length := by
  intro l
  induction l with
  | nil => intro k cnt; rfl
  | cons p rest ih =>
    intro k cnt
    by_cases h30 : cnt < 30
    · by_cases hl : p.lifetime ≤ 0
      · simp [triggerBurstGo, h30, hl, ih]
      · simp [triggerBurstGo, h30, hl, ih]
    · simp [triggerBurstGo, h30]

theorem countActive_add_countInactive (l : List BurstParticle) :
    countActive l + countInactive l = l.length := by
  induction l with
  | nil => rfl
  | cons p rest ih =>
    by_cases h : 0 < p.lifetime
    · have h' : ¬ p.lifetime ≤ 0 := not_le.mpr h
      simp only [countActive, countInactive, List.filter_cons] at *
      simp [h, h', Nat.succ_eq_add_one] at *
      omega
    · have h' : p.lifetime ≤ 0 := not_lt.mp h
      simp only [countActive, countInactive, List.filter_cons] at *
      simp [h, h', Nat.succ_eq_add_one] at *
      omega

theorem countActive_le_length (l : List BurstParticle) :
    countActive l ≤ l.length :=
  List.length_filter_le _ l

/-- The scan activates exactly min (30 - cnt) (number of inactive slots)
slots: the count of active slots afterwards. -/
theorem triggerBurstGo_countActive (env : JSEnv) (origin : Vec3) :
    ∀ (l : List BurstParticle) (k cnt : ℕ),
      countActive (triggerBurstGo env origin l k cnt) =
        countActive l + min (30 - cnt) (countInactive l) := by
  intro l
  induction l with
  | nil => intro k cnt; simp [triggerBurstGo, countActive, countInactive]
  | cons p rest ih =>
    intro k cnt
    by_cases h30 : cnt < 30
    · by_cases hl : p.lifetime ≤ 0
      · have hnact : ¬ 0 < p.lifetime := not_lt.mpr hl
        have hone : (0:ℚ) < (activateBurst env k origin p).lifetime := by
          simp [activateBurst]
        simp only [countActive, countInactive] at *
        simp [triggerBurstGo, h30, hl, hnact, hone, List.filter_cons, ih]
        omega
      · have hact : 0 < p.lifetime := not_le.mp hl
        simp only [countActive, countInactive] at *
        simp [triggerBurstGo, h30, hl, hact, List.filter_cons, ih]
        omega
    · have hz : 30 - cnt = 0 := by omega
      simp only [countActive, countInactive] at *
      simp [triggerBurstGo, h30, hz]

/-- Pointwise description of the scan: every slot is either untouched, or
was inactive and is now the activated record (lifetime 1, position at the
burst origin). -/
theorem triggerBurstGo_pointwise (env : JSEnv) (origin : Vec3) :
    ∀ (l : List BurstParticle) (k cnt j : ℕ) (p q : BurstParticle),
      l[j]? = some p → (triggerBurstGo env origin l k cnt)[j]? = some q →
      q = p ∨ (p.lifetime ≤ 0 ∧ q.lifetime = 1 ∧ q.position = origin) := by
  intro l
  induction l with
  | nil => intro k cnt j p q hp; simp at hp
  | cons hd rest ih =>
    intro k cnt j p q hp hq
    by_cases h30 : cnt < 30
    · by_cases hl : hd.lifetime ≤ 0
      · simp only [triggerBurstGo, h30, hl, if_true, if_pos] at hq
        cases j with
        | zero =>
          simp at hp hq
          subst hp; subst hq
          right
          exact ⟨hl, by simp [activateBurst], by simp [activateBurst]⟩
        | succ j =>
          simp only [List.getElem?_cons_succ] at hp hq
          exact ih (k+6) (cnt+1) j p q hp hq
      · simp only [triggerBurstGo, h30, hl, if_true, if_neg, if_false] at hq
        cases j with
        | zero => simp at hp hq; subst hp; subst hq; left; rfl
        | succ j =>
          simp only [List.getElem?_cons_succ] at hp hq
          exact ih k cnt j p q hp hq
    · simp only [triggerBurstGo, h30, if_neg, if_false] at hq
      rw [hp] at hq
      left; exact (Option.some_inj.mp hq).symm

/-! ### Claim theorems for the burst pool -/

/-- C2: for every burst-pool state and every triggerBurst(position) call,
the number of Active slots (lifetime > 0) after the call never exceeds
the pool's fixed capacity (the length of its arrays, which triggerBurst
preserves: no write outside the pool, no exception since the function is
total), and the call activates exactly min burstSize (number of inactive
slots) slots, so when fewer inactive slots than the requested burst size
(30) exist, only the available inactive slots are activated. -/
theorem burst_pool_safety (env : JSEnv) (origin : Vec3) (pool : List BurstParticle) :
    (triggerBurst env origin pool).length = pool.length ∧
    countActive (triggerBurst env origin pool) ≤ pool.length ∧
    countActive (triggerBurst env origin pool) =
      countActive pool + min 30 (countInactive pool) := by
  refine ⟨triggerBurstGo_length env origin pool 0 0, ?_, ?_⟩
  · calc countActive (triggerBurst env origin pool)
        ≤ (triggerBurst env origin pool).length := countActive_le_length _
      _ = pool.length := triggerBurstGo_length env origin pool 0 0
  · simpa using triggerBurstGo_countActive env origin pool 0 0

/-- C3: triggerBurst(origin) on a pool of capacity 50 of which exactly 10
slots are Active activates exactly 30 previously-inactive slots (the
Active count rises from 10 to 40), and every newly activated slot has
lifetime 1.0 and position equal to the burst origin immediately after
the call. -/
theorem burst_scenario_50_10 (env : JSEnv) (origin : Vec3)
    (pool : List BurstParticle) (hlen : pool.length = 50)
    (hact : countActive pool = 10) :
    countActive (triggerBurst env origin pool) = 40 ∧
    ∀ (j : ℕ) (p q : BurstParticle), pool[j]? = some p →
      (triggerBurst env origin pool)[j]? = some q →
      p.lifetime ≤ 0 → 0 < q.lifetime →
      q.lifetime = 1 ∧ q.position = origin := by
  constructor
  · have hinact : countInactive pool = 40 := by
      have := countActive_add_countInactive pool
      omega
    have := triggerBurstGo_countActive env origin pool 0 0
    simp only [triggerBurst]
    omega
  · intro j p q hp hq hinact hq0
    rcases triggerBurstGo_pointwise env origin pool 0 0 j p q hp hq with h | h
    · subst h; exact absurd hq0 (not_lt.mpr hinact)
    · exact ⟨h.2.1, h.2.2⟩

/-- Concrete Active slot used by witnesses. -/
def activeSlot : BurstParticle :=
  { position := ⟨0, 0, 0⟩, velocity := ⟨0, 0, 0⟩, color := ⟨1, 1, 1⟩
    size := 1, lifetime := 1, ptype := 0 }

/-- Concrete Inactive slot used by witnesses. -/
def inactiveSlot : BurstParticle :=
  { position := ⟨0, 0, 0⟩, velocity := ⟨0, 0, 0⟩, color := ⟨1, 1, 1⟩
    size := 0, lifetime := 0, ptype := 0 }

/-- Concrete pool of 50 slots, 10 of them Active. -/
def pool50 : List BurstParticle :=
  List.replicate 10 activeSlot ++ List.replicate 40 inactiveSlot

/-- Witness for C3: the 50-slot pool with 10 Active slots satisfies the
hypotheses of burst_scenario_50_10, and the conclusion follows. -/
theorem burst_scenario_50_10_witness :
    pool50.length = 50 ∧ countActive pool50 = 10 ∧
    (countActive (triggerBurst env0 ⟨1, 2, 3⟩ pool50) = 40 ∧
     ∀ (j : ℕ) (p q : BurstParticle), pool50[j]? = some p →
       (triggerBurst env0 ⟨1, 2, 3⟩ pool50)[j]? = some q →
       p.lifetime ≤ 0 → 0 < q.lifetime →
       q.lifetime = 1 ∧ q.position = ⟨1, 2, 3⟩) :=
  ⟨by decide, by decide,
    burst_scenario_50_10 env0 ⟨1, 2, 3⟩ pool50 (by decide) (by decide)⟩

/-- C10: the per-frame burst update never activates a slot.  For every
non-negative deltaTime, updateBurstParticles leaves every Inactive slot
(lifetime ≤ 0) entirely unchanged, and the lifetime of every Active slot
is set to max 0 (lifetime - deltaTime * 2): it only ever decreases.  So
an Inactive slot can only become Active through triggerBurst. -/
theorem burst_update_never_activates (dt : ℚ) (pool : List BurstParticle)
    (hdt : 0 ≤ dt) :
    (updateBurstParticles dt pool).length = pool.length ∧
    (∀ (j : ℕ) (p : BurstParticle), pool[j]? = some p →
      (updateBurstParticles dt pool)[j]? = some (updateBurstParticle dt p)) ∧
    (∀ p : BurstParticle, p.lifetime ≤ 0 → updateBurstParticle dt p = p) ∧
    (∀ p : BurstParticle, 0 < p.lifetime →
      (updateBurstParticle dt p).lifetime = max 0 (p.lifetime - dt * 2) ∧
      (updateBurstParticle dt p).lifetime ≤ p.lifetime) := by
  refine ⟨by simp [updateBurstParticles], ?_, ?_, ?_⟩
  · intro j p hp
    simp [updateBurstParticles, List.getElem?_map, hp]
  · intro p hp
    simp [updateBurstParticle, not_lt.mpr hp]
  · intro p hp
    constructor
    · simp only [updateBurstParticle, hp, if_pos]
      rcases le_or_lt 0 (p.lifetime - dt * 2) with h | h

      · simp [not_lt.mpr h, max_eq_right h]
      · simp [h, max_eq_left (le_of_lt h)]
    · simp only [updateBurstParticle, hp, if_pos]
      by_cases h : p.lifetime - dt * 2 < 0
      · simpa [h] using le_of_lt hp
      · simp only [h, if_false]
        nlinarith

/-- Witness for C10 at deltaTime 1 on a concrete two-slot pool. -/
theorem burst_update_never_activates_witness :
    (0:ℚ) ≤ 1 ∧
    ((updateBurstParticles 1 [activeSlot, inactiveSlot]).length =
        [activeSlot, inactiveSlot].length ∧
     (∀ (j : ℕ) (p : BurstParticle), [activeSlot, inactiveSlot][j]? = some p →
       (updateBurstParticles 1 [activeSlot, inactiveSlot])[j]? =
         some (updateBurstParticle 1 p)) ∧
     (∀ p : BurstParticle, p.lifetime ≤ 0 → updateBurstParticle 1 p = p) ∧
     (∀ p : BurstParticle, 0 < p.lifetime →
       (updateBurstParticle 1 p).lifetime = max 0 (p.lifetime - 1 * 2) ∧
       (updateBurstParticle 1 p).lifetime ≤ p.lifetime)) :=
  ⟨by norm_num, burst_update_never_activates 1 [activeSlot, inactiveSlot] (by norm_num)⟩

/-! ## Pulse waves (NeuralNetwork.triggerPulse and the pulse-wave block of
NeuralNetwork.update, PostProcessing.js lines 497, 1192-1198, 1208-1220) -/

/-- A pulse wave record as pushed by triggerPulse. -/
@[ext]
structure PulseWave where
  origin : Vec3
  radius : ℚ
  speed : ℚ
  intensity : ℚ
  life : ℚ
deriving DecidableEq, Repr

/-- NeuralNetwork.maxPulseWaves (line 497). -/
def maxPulseWaves : ℕ := 10

/-- One wave's mutation inside the update filter (lines 1193-1196):
radius grows by speed * deltaTime, life shrinks by deltaTime, intensity
becomes max 0 (life / 3) with the already decremented life. -/
def updatePulseWave (dt : ℚ) (w : PulseWave) : PulseWave :=
  let life := w.life - dt
  { w with radius := w.radius + w.speed * dt
           life := life
           intensity := max 0 (life / 3) }

/-- The pulse-wave block of NeuralNetwork.update (lines 1192-1198):
mutate every wave, keep those with life > 0. -/
def updatePulseWaves (dt : ℚ) (ws : List PulseWave) : List PulseWave :=
  (ws.map (updatePulseWave dt)).filter (fun w => 0 < w.life)

/-- NeuralNetwork.triggerPulse(origin) (lines 1208-1220): when the list
already holds maxPulseWaves waves the oldest (front, shift()) is removed,
then the new wave is appended with radius 0, speed 8, intensity 1.5,
life 4. -/
def triggerPulse (origin : Vec3) (ws : List PulseWave) : List PulseWave :=
  (if maxPulseWaves ≤ ws.length then ws.drop 1 else ws) ++
    [{ origin := origin, radius := 0, speed := 8, intensity := 3/2, life := 4 }]

/-- A session of the pulse-wave subsystem: interleaved triggerPulse calls
and per-frame updates. -/
inductive PulseEvent where
  | trigger (origin : Vec3)
  | frame (dt : ℚ)

/-- One event applied to the wave list. -/
def pulseStep (ws : List PulseWave) : PulseEvent → List PulseWave
  | .trigger o => triggerPulse o ws
  | .frame dt => updatePulseWaves dt ws

/-- A whole session starting from the empty list built in the
constructor (line 480). -/
def runPulseEvents (evs : List PulseEvent) : List PulseWave :=
  evs.foldl pulseStep []

/-- Per-frame simulation used by the C5 scenario: fold the update over a
list of frame deltaTimes. -/
def simPulseFrames (dts : List ℚ) (ws : List PulseWave) : List PulseWave :=
  dts.foldl (fun s d => updatePulseWaves d s) ws

theorem simPulseFrames_nil (dts : List ℚ) : simPulseFrames dts [] = [] := by
  induction dts with
  | nil => rfl
  | cons d rest ih =>
    simpa [simPulseFrames, updatePulseWaves] using ih

/-- A single wave that outlives the whole frame sequence is transformed
exactly: radius grows by speed times the elapsed time, life shrinks by
the elapsed time, intensity ends at max 0 (final life / 3). -/
theorem simPulseFrames_single (dts : List ℚ) (w : PulseWave)
    (hpos : ∀ d ∈ dts, 0 ≤ d) (hlive : dts.sum < w.life)
    (hint : w.intensity = max 0 (w.life / 3)) :
    simPulseFrames dts [w] =
      [{ origin := w.origin
         radius := w.radius + w.speed * dts.sum
         speed := w.speed
         intensity := max 0 ((w.life - dts.sum) / 3)
         life := w.life - dts.sum }] := by
  induction dts generalizing w with
  | nil =>
    simp only [simPulseFrames, List.foldl_nil, List.sum_nil]
    cases w
    simp_all
  | cons d rest ih =>
    have hd : 0 ≤ d := hpos d (List.mem_cons_self d rest)
    have hrest : ∀ x ∈ rest, 0 ≤ x := fun x hx => hpos x (List.mem_cons_of_mem d hx)
    have hsumrest : 0 ≤ rest.sum := List.sum_nonneg hrest
    have hsum : (d :: rest).sum = d + rest.sum := by simp
    have hsurv : 0 < w.life - d := by
      rw [hsum] at hlive
      linarith
    have hstep : updatePulseWaves d [w] = [updatePulseWave d w] := by
      simp [updatePulseWaves, updatePulseWave, hsurv]
    have := ih (updatePulseWave d w)
      (by exact hrest)
      (by simp [updatePulseWave]; rw [hsum] at hlive; linarith)
      (by simp [updatePulseWave])
    simp only [simPulseFrames, List.foldl_cons] at *
    rw [hstep] at *
    rw [this]
    simp [updatePulseWave, hsum]
    constructor
    · ring
    · constructor
      · ring_nf
      · ring

/-- A single wave whose life is exhausted by the frame sequence is
evicted from the list. -/
theorem simPulseFrames_evict (dts : List ℚ) (w : PulseWave)
    (hpos : ∀ d ∈ dts, 0 ≤ d) (hdead : w.life ≤ dts.sum) (hne : dts ≠ []) :
    simPulseFrames dts [w] = [] := by
  induction dts generalizing w with
  | nil => exact absurd rfl hne
  | cons d rest ih =>
    have hrest : ∀ x ∈ rest, 0 ≤ x := fun x hx => hpos x (List.mem_cons_of_mem d hx)
    have hsum : (d :: rest).sum = d + rest.sum := by simp
    by_cases hsurv : 0 < w.life - d
    · have hstep : updatePulseWaves d [w] = [updatePulseWave d w] := by
        simp [updatePulseWaves, updatePulseWave, hsurv]
      have hrne : rest ≠ [] := by
        rintro rfl
        simp at hdead
        linarith
      have := ih (updatePulseWave d w) hrest
        (by simp [updatePulseWave]; rw [hsum] at hdead; linarith)
        hrne
      simp only [simPulseFrames, List.foldl_cons] at *
      rw [hstep]
      exact this
    · have hstep : updatePulseWaves d [w] = [] := by
        simp [updatePulseWaves, updatePulseWave]
        linarith [not_lt.mp hsurv]
      simp only [simPulseFrames, List.foldl_cons]
      rw [hstep]
      exact simPulseFrames_nil rest

/-- C5: a PulseWave created with life 3 and speed 8 at radius 0, after
per-frame updates whose deltaTimes are non-negative and sum to 1.5
seconds, has radius exactly 12 and intensity exactly remaining life / 3
= 0.5; and after updates whose deltaTimes sum to 3 seconds or more it
has been evicted from the active list. -/
theorem pulse_wave_scenario (o : Vec3) (i0 : ℚ) (dts1 dts2 : List ℚ)
    (h1 : ∀ d ∈ dts1, 0 ≤ d) (h2 : dts1.sum = 3/2)
    (h3 : ∀ d ∈ dts2, 0 ≤ d) (h4 : 3 ≤ dts2.sum) :
    simPulseFrames dts1 [⟨o, 0, 8, i0, 3⟩] = [⟨o, 12, 8, 1/2, 3/2⟩] ∧
    simPulseFrames dts2 [⟨o, 0, 8, i0, 3⟩] = [] := by
  constructor
  · cases dts1 with
    | nil => norm_num at h2
    | cons d rest =>
      have hd : 0 ≤ d := h1 d (List.mem_cons_self d rest)
      have hrest : ∀ x ∈ rest, 0 ≤ x := fun x hx => h1 x (List.mem_cons_of_mem d hx)
      have hrsum : rest.sum = 3/2 - d := by
        have : d + rest.sum = 3/2 := by simpa using h2
        linarith
      have hrnn : 0 ≤ rest.sum := List.sum_nonneg hrest
      have hsurv : (0:ℚ) < 3 - d := by
        rw [hrsum] at hrnn
        linarith
      have hstep : updatePulseWaves d [(⟨o, 0, 8, i0, 3⟩ : PulseWave)] =
          [updatePulseWave d ⟨o, 0, 8, i0, 3⟩] := by
        simp [updatePulseWaves, updatePulseWave]
        linarith
      have happ := simPulseFrames_single rest (updatePulseWave d ⟨o, 0, 8, i0, 3⟩)
        hrest
        (by simp [updatePulseWave]; rw [hrsum]; linarith)
        (by simp [updatePulseWave])
      simp only [simPulseFrames, List.foldl_cons] at *
      rw [hstep, happ]
      refine congrArg (fun w => [w]) ?_
      apply PulseWave.ext
      · simp [updatePulseWave]
      · simp [updatePulseWave, hrsum]; ring
      · simp [updatePulseWave]
      · simp only [updatePulseWave, hrsum]
        rw [show ((3:ℚ) - d - (3/2 - d)) = 3/2 from by ring]
        rw [max_eq_right (by norm_num : (0:ℚ) ≤ 3/2/3)]
        norm_num
      · simp [updatePulseWave, hrsum]; ring
  · have hne : dts2 ≠ [] := by
      rintro rfl
      simp at h4
      linarith
    exact simPulseFrames_evict dts2 ⟨o, 0, 8, i0, 3⟩ h3 (by simpa using h4) hne

/-- Witness for C5: the frame sequences [1.5] and [3]. -/
theorem pulse_wave_scenario_witness :
    (∀ d ∈ [(3:ℚ)/2], 0 ≤ d) ∧ ([(3:ℚ)/2].sum = 3/2) ∧
    (∀ d ∈ [(3:ℚ)], 0 ≤ d) ∧ ((3:ℚ) ≤ [(3:ℚ)].sum) ∧
    (simPulseFrames [3/2] [⟨⟨0,0,0⟩, 0, 8, 3/2, 3⟩] = [⟨⟨0,0,0⟩, 12, 8, 1/2, 3/2⟩] ∧
     simPulseFrames [3] [⟨⟨0,0,0⟩, 0, 8, 3/2, 3⟩] = []) :=
  ⟨by intro d hd; simp at hd; subst hd; norm_num,
   by simp,
   by intro d hd; simp at hd; subst hd; norm_num,
   by simp,
   pulse_wave_scenario ⟨0,0,0⟩ (3/2) [3/2] [3]
     (by intro d hd; simp at hd; subst hd; norm_num)
     (by simp)
     (by intro d hd; simp at hd; subst hd; norm_num)
     (by simp)⟩

theorem pulseStep_length_le (ws : List PulseWave) (e : PulseEvent)
    (h : ws.length ≤ maxPulseWaves) :
    (pulseStep ws e).length ≤ maxPulseWaves := by
  cases e with
  | trigger o =>
    simp only [pulseStep, triggerPulse, maxPulseWaves] at *
    by_cases hfull : 10 ≤ ws.length
    · simp [hfull]
      omega
    · simp [hfull]
      omega
  | frame dt =>
    simp only [pulseStep, updatePulseWaves, maxPulseWaves] at *
    calc ((ws.map (updatePulseWave dt)).filter (fun w => 0 < w.life)).length
        ≤ (ws.map (updatePulseWave dt)).length := List.length_filter_le _ _
      _ = ws.length := List.length_map _ _
      _ ≤ 10 := h

theorem runPulse_go_length (evs : List PulseEvent) :
    ∀ ws : List PulseWave, ws.length ≤ maxPulseWaves →
      (evs.foldl pulseStep ws).length ≤ maxPulseWaves := by
  induction evs with
  | nil => intro ws h; simpa using h
  | cons e rest ih =>
    intro ws h
    simp only [List.foldl_cons]
    exact ih (pulseStep ws e) (pulseStep_length_le ws e h)

/-- C6: the active pulse-wave list is bounded.  For every session of
triggerPulse and per-frame update calls starting from the empty list,
the number of stored waves never exceeds maxPulseWaves = 10; and a
triggerPulse call on a list at that maximum first evicts the oldest wave
(the front of the list) and then appends the new wave at radius 0. -/
theorem pulse_list_bounded :
    (∀ evs : List PulseEvent, (runPulseEvents evs).length ≤ maxPulseWaves) ∧
    (∀ (o : Vec3) (ws : List PulseWave), ws.length = maxPulseWaves →
      triggerPulse o ws =
        ws.drop 1 ++ [{ origin := o, radius := 0, speed := 8,
                        intensity := 3/2, life := 4 }]) := by
  constructor
  · intro evs
    exact runPulse_go_length evs [] (by simp [maxPulseWaves])
  · intro o ws h
    simp [triggerPulse, h]

/-- Wave record used in witnesses for C6. -/
def pw0 : PulseWave := { origin := ⟨0,0,0⟩, radius := 0, speed := 8, intensity := 3/2, life := 4 }

/-- Witness for C6: a three-event session, and a concrete full list of 10
waves for the eviction clause. -/
theorem pulse_list_bounded_witness :
    (runPulseEvents [PulseEvent.trigger ⟨0,0,0⟩, PulseEvent.frame 1,
        PulseEvent.trigger ⟨1,0,0⟩]).length ≤ maxPulseWaves ∧
    (List.replicate 10 pw0).length = maxPulseWaves ∧
    triggerPulse ⟨0,0,0⟩ (List.replicate 10 pw0) =
      (List.replicate 10 pw0).drop 1 ++
        [{ origin := ⟨0,0,0⟩, radius := 0, speed := 8, intensity := 3/2, life := 4 }] :=
  ⟨pulse_list_bounded.1 _, by simp [maxPulseWaves],
   pulse_list_bounded.2 ⟨0,0,0⟩ (List.replicate 10 pw0) (by simp [maxPulseWaves])⟩

/-! ## Flow particles (ParticleSystem.createFlowParticles and
ParticleSystem.updateFlowParticles, lines 41-123 and 631-685)

The flow paths the particles travel on are produced by the
NeuralNetwork class; for the particle engine they are opaque records
with a curve (getPoint) and a tangent (getTangent) function.  The exact
curves of the deriver are modelled over the reals further below for C4;
here only their interface matters. -/

/-- A flow path as consumed by the particle engine. -/
structure FlowPath where
  curve : ℚ → Vec3
  tangent : ℚ → Vec3

/-- One flow particle record, spread over the parallel attribute arrays
in the source.  pathIndex is stored as a float whose value is always a
natural number (every write is Math.floor of a non-negative number). -/
structure FlowParticle where
  position : Vec3
  velocity : Vec3
  color : Vec3
  size : ℚ
  lifetime : ℚ
  pathIndex : ℕ
  progress : ℚ
  speed : ℚ

/-- Initialization of one flow particle (createFlowParticles loop body,
lines 57-88).  The Math.random() draws are consumed in source order:
pathIndex, progress, hue, size, lifetime, speed (k is the stream cursor).
Returns none when the indexed path does not exist: the source then reads
path.curve of undefined and throws a TypeError. -/
def mkFlowParticle (env : JSEnv) (paths : List FlowPath) (k : ℕ) :
    Option (FlowParticle × ℕ) :=
  let pathIndex := (⌊env.rand k * paths.length⌋).toNat
  match paths[pathIndex]? with
  | none => none
  | some path =>
    let progress := env.rand (k+1)
    let point := path.curve progress
    let tangent := path.tangent progress
    let hue := 1/2 + env.rand (k+2) * (1/5)
    some ({ position := point
            velocity := tangent
            color := env.hsl hue (4/5) (3/5)
            size := env.rand (k+3) * 4 + 2
            lifetime := env.rand (k+4) * 10 + 5
            pathIndex := pathIndex
            progress := progress
            speed := 1/10 + env.rand (k+5) * (1/5) }, k + 6)

/-- The createFlowParticles loop over particleCount slots. -/
def createFlowParticlesGo (env : JSEnv) (paths : List FlowPath) :
    ℕ → ℕ → Option (List FlowParticle)
  | 0, _ => some []
  | n + 1, k =>
    match mkFlowParticle env paths k with
    | none => none
    | some (p, k') => (createFlowParticlesGo env paths n k').map (fun rest => p :: rest)

/-- ParticleSystem.createFlowParticles (lines 41-123):
particleCount = Math.floor(params.particleCount * 0.3) slots.  The
result is none exactly when the source throws. -/
def createFlowParticles (env : JSEnv) (paths : List FlowPath)
    (maxParticles : ℕ) : Option (List FlowParticle) :=
  createFlowParticlesGo env paths (3 * maxParticles / 10) 0

/-- One particle's update (updateFlowParticles loop body, lines
639-679).  Returns the updated particle and the advanced Math.random()
cursor; i is the particle index (used in the oscillatory offsets),
time the elapsed time, dt the frame's deltaTime. -/
def updateFlowParticle (env : JSEnv) (paths : List FlowPath)
    (animationSpeed time dt : ℚ) (i : ℕ) (p : FlowParticle) (k : ℕ) :
    FlowParticle × ℕ :=
  -- lines 643-653: advance progress, wrap and occasionally reroll the path
  let prog1 := p.progress + p.speed * dt * animationSpeed
  let wrapped := 1 < prog1
  let progress := if wrapped then 0 else prog1
  let pathIndex :=
    if wrapped then
      if env.rand k < 3/10 then (⌊env.rand (k+1) * paths.length⌋).toNat
      else p.pathIndex
    else p.pathIndex
  let k1 := if wrapped then (if env.rand k < 3/10 then k + 2 else k + 1) else k
  -- lines 656-672: move to the path position when the path exists
  let (position, velocity) :=
    match paths[pathIndex]? with
    | some path =>
      let point := path.curve progress
      let tangent := path.tangent progress
      let offset := env.jsin (time * 2 + i) * (1/10)
      (⟨point.x + tangent.y * offset,
        point.y - tangent.x * offset,
        point.z + env.jsin (time + i) * (1/20)⟩, tangent)
    | none => (p.position, p.velocity)
  -- lines 675-678: lifetime countdown and respawn
  let life1 := p.lifetime - dt
  let lifetime := if life1 ≤ 0 then 10 + env.rand k1 * 10 else life1
  let k2 := if life1 ≤ 0 then k1 + 1 else k1
  ({ p with position := position, velocity := velocity, lifetime := lifetime,
            pathIndex := pathIndex, progress := progress }, k2)

/-- The updateFlowParticles loop (lines 639-679), threading the particle
index and the Math.random() cursor. -/
def updateFlowParticlesGo (env : JSEnv) (paths : List FlowPath)
    (animationSpeed time dt : ℚ) : List FlowParticle → ℕ → ℕ → List FlowParticle
  | [], _, _ => []
  | p :: rest, i, k =>
    let r := updateFlowParticle env paths animationSpeed time dt i p k
    r.1 :: updateFlowParticlesGo env paths animationSpeed time dt rest (i+1) r.2

/-- ParticleSystem.updateFlowParticles(deltaTime) (lines 631-685). -/
def updateFlowParticles (env : JSEnv) (paths : List FlowPath)
    (animationSpeed time dt : ℚ) (ps : List FlowParticle) : List FlowParticle :=
  updateFlowParticlesGo env paths animationSpeed time dt ps 0 0

/-- Everything C1 asserts about one particle after one update. -/
def flowTickSpec (env : JSEnv) (paths : List FlowPath)
    (animationSpeed dt : ℚ) (p q : FlowParticle) : Prop :=
  (0 ≤ q.progress ∧ q.progress ≤ 1) ∧
  (p.progress + p.speed * dt * animationSpeed ≤ 1 →
    q.progress = p.progress + p.speed * dt * animationSpeed ∧
    q.pathIndex = p.pathIndex) ∧
  (1 < p.progress + p.speed * dt * animationSpeed →
    q.progress = 0 ∧
    ∃ k : ℕ,
      (env.rand k < 3/10 ∧
        q.pathIndex = (⌊env.rand (k+1) * paths.length⌋).toNat ∧
        q.pathIndex < paths.length) ∨
      (¬ env.rand k < 3/10 ∧ q.pathIndex = p.pathIndex))

theorem updateFlowParticle_spec (env : JSEnv) (paths : List FlowPath)
    (animationSpeed time dt : ℚ) (i k : ℕ) (p : FlowParticle)
    (hrand : ∀ n, 0 ≤ env.rand n ∧ env.rand n < 1)
    (hpaths : paths ≠ [])
    (hp0 : 0 ≤ p.progress) (hp1 : p.progress ≤ 1)
    (hsp : 0 ≤ p.speed) (hdt : 0 ≤ dt) (has : 0 ≤ animationSpeed) :
    flowTickSpec env paths animationSpeed dt p
      (updateFlowParticle env paths animationSpeed time dt i p k).1 := by
  have hinc : 0 ≤ p.speed * dt * animationSpeed := by positivity
  have hlen : 0 < paths.length := List.length_pos.mpr hpaths
  have hfloor : ∀ m : ℕ, ((⌊env.rand m * paths.length⌋).toNat < paths.length) := by
    intro m
    have h0 := (hrand m).1
    have h1 := (hrand m).2
    have hmul : env.rand m * (paths.length : ℚ) < (paths.length : ℚ) := by
      have : (0:ℚ) < (paths.length : ℚ) := by exact_mod_cast hlen
      nlinarith
    have hfl : ⌊env.rand m * paths.length⌋ < (paths.length : ℤ) := by
      rw [Int.floor_lt]
      exact_mod_cast hmul
    omega
  by_cases hw : 1 < p.progress + p.speed * dt * animationSpeed
  · refine ⟨?_, ?_, ?_⟩
    · simp only [updateFlowParticle, hw, if_true]
      norm_num
    · intro hle; linarith
    · intro _
      refine ⟨by simp [updateFlowParticle, hw], ⟨k, ?_⟩⟩
      by_cases hr : env.rand k < 3/10
      · left
        exact ⟨hr, by simp [updateFlowParticle, hw, hr], by
          simp only [updateFlowParticle, hw, hr, if_true]
          exact hfloor (k+1)⟩
      · right
        exact ⟨hr, by simp [updateFlowParticle, hw, hr]⟩
  · refine ⟨?_, ?_, ?_⟩
    · constructor
      · simp only [updateFlowParticle, hw, if_false]
        linarith
      · simp only [updateFlowParticle, hw, if_false]
        linarith [not_lt.mp hw]
    · intro _
      exact ⟨by simp [updateFlowParticle, hw], by simp [updateFlowParticle, hw]⟩
    · intro hgt; linarith

theorem updateFlowParticlesGo_spec (env : JSEnv) (paths : List FlowPath)
    (animationSpeed time dt : ℚ)
    (hrand : ∀ n, 0 ≤ env.rand n ∧ env.rand n < 1)
    (hpaths : paths ≠ []) :
    ∀ (ps : List FlowParticle) (i k j : ℕ) (p q : FlowParticle),
      ps[j]? = some p →
      (updateFlowParticlesGo env paths animationSpeed time dt ps i k)[j]? = some q →
      0 ≤ p.progress → p.progress ≤ 1 → 0 ≤ p.speed → 0 ≤ dt → 0 ≤ animationSpeed →
      flowTickSpec env paths animationSpeed dt p q := by
  intro ps
  induction ps with
  | nil => intro i k j p q hp; simp at hp
  | cons hd rest ih =>
    intro i k j p q hp hq hp0 hp1 hsp hdt has
    cases j with
    | zero =>
      simp only [List.getElem?_cons_zero, Option.some_inj] at hp
      simp only [updateFlowParticlesGo, List.getElem?_cons_zero, Option.some_inj] at hq
      subst hp
      subst hq
      exact updateFlowParticle_spec env paths animationSpeed time dt i k hd
        hrand hpaths hp0 hp1 hsp hdt has
    | succ j =>
      simp only [List.getElem?_cons_succ] at hp
      simp only [updateFlowParticlesGo, List.getElem?_cons_succ] at hq
      exact ih (i+1) _ j p q hp hq hp0 hp1 hsp hdt has

/-- C1: one tick of updateFlowParticles(deltaTime) with a non-empty flow
path list, non-negative speed, deltaTime and animationSpeed maps every
particle whose progress is in [0,1] to a particle whose progress is
again in [0,1]: the increment speed * deltaTime * animationSpeed is
applied, and when the result exceeds 1 the progress is reset to 0 within
the same tick, the path index being rerolled to the uniformly drawn
index floor(u * pathCount) (a valid index) when the probability draw is
below 0.3 and left unchanged otherwise. -/
theorem flow_progress_invariant (env : JSEnv) (paths : List FlowPath)
    (animationSpeed time dt : ℚ) (ps : List FlowParticle)
    (hrand : ∀ n, 0 ≤ env.rand n ∧ env.rand n < 1)
    (hpaths : paths ≠ []) (hdt : 0 ≤ dt) (has : 0 ≤ animationSpeed) :
    ∀ (j : ℕ) (p q : FlowParticle),
      ps[j]? = some p →
      (updateFlowParticles env paths animationSpeed time dt ps)[j]? = some q →
      0 ≤ p.progress → p.progress ≤ 1 → 0 ≤ p.speed →
      flowTickSpec env paths animationSpeed dt p q := by
  intro j p q hp hq hp0 hp1 hsp
  exact updateFlowParticlesGo_spec env paths animationSpeed time dt hrand hpaths
    ps 0 0 j p q hp hq hp0 hp1 hsp hdt has

/-- A trivial path used by witnesses. -/
def path0 : FlowPath := { curve := fun _ => ⟨0, 0, 0⟩, tangent := fun _ => ⟨1, 0, 0⟩ }

/-- A concrete flow particle used by witnesses. -/
def flowP0 : FlowParticle :=
  { position := ⟨0, 0, 0⟩, velocity := ⟨1, 0, 0⟩, color := ⟨0, 0, 1⟩
    size := 2, lifetime := 5, pathIndex := 0, progress := 1/2, speed := 1 }

/-- Witness for C1: the concrete particle at progress 1/2 with speed 1,
deltaTime 1, animationSpeed 1 wraps and lands back inside [0,1]. -/
theorem flow_progress_invariant_witness :
    (∀ n, 0 ≤ env0.rand n ∧ env0.rand n < 1) ∧
    ([path0] ≠ []) ∧ ((0:ℚ) ≤ 1) ∧ ((0:ℚ) ≤ 1) ∧
    (∀ (j : ℕ) (p q : FlowParticle),
      [flowP0][j]? = some p →
      (updateFlowParticles env0 [path0] 1 0 1 [flowP0])[j]? = some q →
      0 ≤ p.progress → p.progress ≤ 1 → 0 ≤ p.speed →
      flowTickSpec env0 [path0] 1 1 p q) :=
  ⟨fun n => by constructor <;> norm_num [env0],
   by simp, by norm_num, by norm_num,
   flow_progress_invariant env0 [path0] 1 0 1 [flowP0]
     (fun n => by constructor <;> norm_num [env0])
     (by simp) (by norm_num) (by norm_num)⟩

/-- C9 (flow-particle part): with an empty flow-path list the per-frame
flow update completes and leaves every particle's position unchanged
(the path lookup guard fails), while pool construction reads the curve
of an undefined path and fails: createFlowParticles returns none for
every random stream as soon as the pool size is positive (here
params.particleCount = 4, so the flow pool holds floor(4 * 0.3) = 1
particle). -/
theorem flow_empty_paths (env : JSEnv) :
    createFlowParticles env [] 4 = none ∧
    ∀ (animationSpeed time dt : ℚ) (ps : List FlowParticle) (j : ℕ)
      (p q : FlowParticle),
      ps[j]? = some p →
      (updateFlowParticles env [] animationSpeed time dt ps)[j]? = some q →
      q.position = p.position ∧ q.velocity = p.velocity := by
  constructor
  · show createFlowParticlesGo env [] (3 * 4 / 10) 0 = none
    norm_num
    simp [createFlowParticlesGo, mkFlowParticle]
  · intro animationSpeed time dt ps
    have main : ∀ (ps : List FlowParticle) (i k j : ℕ) (p q : FlowParticle),
        ps[j]? = some p →
        (updateFlowParticlesGo env [] animationSpeed time dt ps i k)[j]? = some q →
        q.position = p.position ∧ q.velocity = p.velocity := by
      intro ps
      induction ps with
      | nil => intro i k j p q hp; simp at hp
      | cons hd rest ih =>
        intro i k j p q hp hq
        cases j with
        | zero =>
          simp only [List.getElem?_cons_zero, Option.some_inj] at hp
          simp only [updateFlowParticlesGo, List.getElem?_cons_zero,
            Option.some_inj] at hq
          subst hp
          subst hq
          constructor <;> simp [updateFlowParticle]
        | succ j =>
          simp only [List.getElem?_cons_succ] at hp
          simp only [updateFlowParticlesGo, List.getElem?_cons_succ] at hq
          exact ih (i+1) _ j p q hp hq
    intro j p q hp hq
    exact main ps 0 0 j p q hp hq

/-! ## Flow path derivation (NeuralNetwork.createFlowEdge and
NeuralNetwork.createFlowPaths, PostProcessing.js lines 808-884)

Both path constructors build a THREE.CatmullRomCurve3 through three
control points (start, offset midpoint, end), open and of the default
centripetal type.  The curve evaluation below is the semantics of
THREE.CatmullRomCurve3.getPoint for a 3-point open centripetal curve:
parameter mapped to segment index and local weight, end segments using
reflected ghost points, knot spacing dt computed as squared distance to
the power 0.25 with the small-interval guards, and a cubic Hermite
polynomial per coordinate (CubicPoly.init / initNonuniformCatmullRom /
calc).  Real division by zero is total in Lean; the guards keep every
divisor positive exactly as in the library. -/

/-- A 3-component real vector. -/
@[ext]
structure Vec3R where
  x : ℝ
  y : ℝ
  z : ℝ

/-- Squared euclidean distance (Vector3.distanceToSquared). -/
noncomputable def distSq (a b : Vec3R) : ℝ :=
  (a.x - b.x)^2 + (a.y - b.y)^2 + (a.z - b.z)^2

/-- Vector length (Vector3.length). -/
noncomputable def vlength (v : Vec3R) : ℝ :=
  Real.sqrt (v.x^2 + v.y^2 + v.z^2)

/-- Vector3.normalize: divideScalar(length || 1), so the zero vector is
left unchanged. -/
noncomputable def normalizeV (v : Vec3R) : Vec3R :=
  let l := vlength v
  if l = 0 then v else ⟨v.x / l, v.y / l, v.z / l⟩

/-- CubicPoly.init followed by calc: the Hermite cubic with position x0,
x1 and scaled tangents t0, t1, evaluated at weight w. -/
def cubicInitCalc (x0 x1 t0 t1 w : ℝ) : ℝ :=
  x0 + t0 * w + (-3*x0 + 3*x1 - 2*t0 - t1) * w^2 + (2*x0 - 2*x1 + t0 + t1) * w^3

/-- CubicPoly.initNonuniformCatmullRom followed by calc. -/
noncomputable def nonuniformCatmullRom (x0 x1 x2 x3 dt0 dt1 dt2 w : ℝ) : ℝ :=
  let t1 := ((x1 - x0) / dt0 - (x2 - x0) / (dt0 + dt1) + (x2 - x1) / dt1) * dt1
  let t2 := ((x2 - x1) / dt1 - (x3 - x1) / (dt1 + dt2) + (x3 - x2) / dt2) * dt1
  cubicInitCalc x1 x2 t1 t2 w

/-- The control point list of a 3-point curve, indexed as
points[i % 3] for i in 0..2. -/
def catPts (q0 q1 q2 : Vec3R) (i : ℤ) : Vec3R :=
  if i = 0 then q0 else if i = 1 then q1 else q2

/-- THREE.CatmullRomCurve3.getPoint for the open centripetal 3-point
curve [q0, q1, q2]. -/
noncomputable def catmullRom3 (q0 q1 q2 : Vec3R) (t : ℝ) : Vec3R :=
  let p := 2 * t
  let ip0 : ℤ := ⌊p⌋
  let w0 : ℝ := p - ip0
  let atEnd := w0 = 0 ∧ ip0 = 2
  let ip : ℤ := if atEnd then 1 else ip0
  let w : ℝ := if atEnd then 1 else w0
  let p0 := if 0 < ip then catPts q0 q1 q2 ((ip - 1) % 3)
            else ⟨2*q0.x - q1.x, 2*q0.y - q1.y, 2*q0.z - q1.z⟩
  let p1 := catPts q0 q1 q2 (ip % 3)
  let p2 := catPts q0 q1 q2 ((ip + 1) % 3)
  let p3 := if ip + 2 < 3 then catPts q0 q1 q2 ((ip + 2) % 3)
            else ⟨2*q2.x - q1.x, 2*q2.y - q1.y, 2*q2.z - q1.z⟩
  let dt0a := Real.sqrt (Real.sqrt (distSq p0 p1))
  let dt1a := Real.sqrt (Real.sqrt (distSq p1 p2))
  let dt2a := Real.sqrt (Real.sqrt (distSq p2 p3))
  let dt1b := if dt1a < 1e-4 then 1 else dt1a
  let dt0b := if dt0a < 1e-4 then dt1b else dt0a
  let dt2b := if dt2a < 1e-4 then dt1b else dt2a
  ⟨nonuniformCatmullRom p0.x p1.x p2.x p3.x dt0b dt1b dt2b w,
   nonuniformCatmullRom p0.y p1.y p2.y p3.y dt0b dt1b dt2b w,
   nonuniformCatmullRom p0.z p1.z p2.z p3.z dt0b dt1b dt2b w⟩

/-- A derived flow path: curve, direction, length and the main
(boundary) flag; structural paths from createFlowEdge carry no isMain
key, modelled as false. -/
structure FlowPathR where
  curve : ℝ → Vec3R
  direction : Vec3R
  length : ℝ
  isMain : Bool

/-- NeuralNetwork.createFlowEdge(start, end) (lines 808-861): curve
through start, the midpoint offset by the random jitter
((r1-0.5)*0.3, (r2-0.5)*0.3, (r3-0.5)*0.1), and end. -/
noncomputable def createFlowEdgePath (start fin : Vec3R) (r1 r2 r3 : ℝ) :
    FlowPathR :=
  let dvec : Vec3R := ⟨fin.x - start.x, fin.y - start.y, fin.z - start.z⟩
  let mid : Vec3R := ⟨(start.x + fin.x)/2 + (r1 - 1/2) * (3/10),
                      (start.y + fin.y)/2 + (r2 - 1/2) * (3/10),
                      (start.z + fin.z)/2 + (r3 - 1/2) * (1/10)⟩
  { curve := catmullRom3 start mid fin
    direction := normalizeV dvec
    length := vlength dvec
    isMain := false }

/-- The octagon vertex list of createAdvancedOctagonStructure (lines
600-608): radius 8, angle i * 2π / 8. -/
noncomputable def octagonVertex3 (i : ℕ) : Vec3R :=
  ⟨Real.cos ((i : ℝ) * (Real.pi * 2) / 8) * 8,
   Real.sin ((i : ℝ) * (Real.pi * 2) / 8) * 8, 0⟩

/-- NeuralNetwork.createFlowPaths (lines 863-884), the boundary path for
side i: curve through vertex i, the midpoint with the sinusoidal
z-offset sin(i*0.5)*0.5, and vertex (i+1) % 8. -/
noncomputable def createBoundaryPath (i : ℕ) : FlowPathR :=
  let cur := octagonVertex3 i
  let nxt := octagonVertex3 ((i + 1) % 8)
  let mid : Vec3R := ⟨(cur.x + nxt.x)/2, (cur.y + nxt.y)/2,
                      (cur.z + nxt.z)/2 + Real.sin ((i : ℝ) * (1/2)) * (1/2)⟩
  { curve := catmullRom3 cur mid nxt
    direction := normalizeV ⟨nxt.x - cur.x, nxt.y - cur.y, nxt.z - cur.z⟩
    length := Real.sqrt (distSq cur nxt)
    isMain := true }

theorem cubicInitCalc_zero (x0 x1 t0 t1 : ℝ) : cubicInitCalc x0 x1 t0 t1 0 = x0 := by
  simp [cubicInitCalc]

theorem cubicInitCalc_one (x0 x1 t0 t1 : ℝ) : cubicInitCalc x0 x1 t0 t1 1 = x1 := by
  simp only [cubicInitCalc]
  ring

theorem nonuniformCatmullRom_zero (x0 x1 x2 x3 dt0 dt1 dt2 : ℝ) :
    nonuniformCatmullRom x0 x1 x2 x3 dt0 dt1 dt2 0 = x1 := by
  simp only [nonuniformCatmullRom]
  exact cubicInitCalc_zero _ _ _ _

theorem nonuniformCatmullRom_one (x0 x1 x2 x3 dt0 dt1 dt2 : ℝ) :
    nonuniformCatmullRom x0 x1 x2 x3 dt0 dt1 dt2 1 = x2 := by
  simp only [nonuniformCatmullRom]
  exact cubicInitCalc_one _ _ _ _

theorem catmullRom3_zero (q0 q1 q2 : Vec3R) : catmullRom3 q0 q1 q2 0 = q0 := by
  have hfl : ⌊(2:ℝ) * 0⌋ = 0 := by norm_num
  have hcond : ¬ ((2:ℝ) * 0 - (⌊(2:ℝ) * 0⌋ : ℝ) = 0 ∧ ⌊(2:ℝ) * 0⌋ = (2:ℤ)) := by
    rw [hfl]; norm_num
  apply Vec3R.ext <;>
    simp [catmullRom3, hcond, hfl, catPts, nonuniformCatmullRom_zero]

theorem catmullRom3_one (q0 q1 q2 : Vec3R) : catmullRom3 q0 q1 q2 1 = q2 := by
  have hfl : ⌊(2:ℝ) * 1⌋ = 2 := by norm_num
  have hcond : ((2:ℝ) * 1 - (⌊(2:ℝ) * 1⌋ : ℝ) = 0 ∧ ⌊(2:ℝ) * 1⌋ = (2:ℤ)) := by
    rw [hfl]; norm_num
  apply Vec3R.ext <;>
    simp [catmullRom3, hcond, hfl, catPts, nonuniformCatmullRom_one]

/-- C4: every FlowPath produced by the deriver, both the structural
paths built by createFlowEdge from graph edges (with their random
midpoint jitter) and the boundary paths built by createFlowPaths from
consecutive octagon vertices (with their sinusoidal midpoint z-offset),
evaluates at parameter t = 0 to its declared start endpoint and at t = 1
to its declared end endpoint, exactly. -/
theorem flow_path_endpoints :
    (∀ (s f : Vec3R) (r1 r2 r3 : ℝ),
      (createFlowEdgePath s f r1 r2 r3).curve 0 = s ∧
      (createFlowEdgePath s f r1 r2 r3).curve 1 = f) ∧
    (∀ i : ℕ,
      (createBoundaryPath i).curve 0 = octagonVertex3 i ∧
      (createBoundaryPath i).curve 1 = octagonVertex3 ((i + 1) % 8)) := by
  constructor
  · intro s f r1 r2 r3
    exact ⟨catmullRom3_zero _ _ _, catmullRom3_one _ _ _⟩
  · intro i
    exact ⟨catmullRom3_zero _ _ _, catmullRom3_one _ _ _⟩

/-! ## The octagon inside test (NeuralNetwork.isInsideOctagon,
PostProcessing.js lines 1118-1129) -/

/-- Math.atan2(y, x): the argument of the complex number x + y i, in
(-π, π]. -/
noncomputable def atan2 (y x : ℝ) : ℝ := Complex.arg ⟨x, y⟩

/-- The JavaScript remainder a % b.  JS truncates the quotient towards
zero; for a non-negative dividend and positive divisor (the only use
below has dividend angle + π ∈ (0, 2π] and divisor π/4) this equals the
floor-based remainder. -/
noncomputable def jsMod (a b : ℝ) : ℝ := a - b * ⌊a / b⌋

/-- NeuralNetwork.isInsideOctagon(position) (lines 1118-1129), on the
xy-plane coordinates of the position.  octagonRadius = 8.  The source
also computes a segment index (line 1122) that is never used; it is
omitted.  The test compares the planar distance against
(radius / cos(localAngle)) * 0.95. -/
noncomputable def isInsideOctagon (x y : ℝ) : Prop :=
  let angle := atan2 y x
  let segmentAngle := Real.pi / 4
  let localAngle := jsMod (angle + Real.pi) segmentAngle - segmentAngle / 2
  let maxRadius := 8 / Real.cos localAngle
  Real.sqrt (x^2 + y^2) ≤ maxRadius * 0.95

/-- Modelled from the spec wording of C7: the 45-degree sector
containing p, counted from angle -π as the code does. -/
noncomputable def specSector (x y : ℝ) : ℤ :=
  ⌊(atan2 y x + Real.pi) / (Real.pi / 4)⌋

/-- Modelled from the spec wording of C7: the center angle of that
sector. -/
noncomputable def specSectorCenter (x y : ℝ) : ℝ :=
  (Real.pi / 4) * specSector x y + Real.pi / 8 - Real.pi

/-- Modelled from the spec wording of C7: p's angular offset from the
center of its sector. -/
noncomputable def specLocalAngle (x y : ℝ) : ℝ :=
  atan2 y x - specSectorCenter x y

/-- Modelled from the spec wording of C7: radial distance at most 0.95
times radius / cos(localAngle). -/
noncomputable def isInsideOctagonSpec (x y : ℝ) : Prop :=
  Real.sqrt (x^2 + y^2) ≤ 0.95 * (8 / Real.cos (specLocalAngle x y))

theorem jsMod_nonneg (a b : ℝ) (hb : 0 < b) : 0 ≤ jsMod a b := by
  have h := Int.fract_nonneg (a / b)
  have heq : jsMod a b = b * Int.fract (a / b) := by
    simp only [jsMod, Int.fract]
    field_simp
  rw [heq]
  positivity

theorem jsMod_lt (a b : ℝ) (hb : 0 < b) : jsMod a b < b := by
  have h := Int.fract_lt_one (a / b)
  have heq : jsMod a b = b * Int.fract (a / b) := by
    simp only [jsMod, Int.fract]
    field_simp
  rw [heq]
  calc b * Int.fract (a / b) < b * 1 := by
        exact (mul_lt_mul_left hb).mpr h
    _ = b := mul_one b

/-- C7: the inside test is exactly the sector-local comparison the spec
describes: a point p is accepted iff its planar distance
sqrt(p.x² + p.y²) is at most 0.95 times radius / cos(localAngle), where
localAngle is p's angular offset from the center of its 45-degree
sector (always in [-π/8, π/8)), for the regular octagon of radius 8. -/
theorem inside_octagon_formula (x y : ℝ) :
    (isInsideOctagon x y ↔ isInsideOctagonSpec x y) ∧
    specLocalAngle x y ∈ Set.Ico (-(Real.pi/8)) (Real.pi/8) := by
  have hkey : specLocalAngle x y =
      jsMod (atan2 y x + Real.pi) (Real.pi/4) - (Real.pi/4)/2 := by
    simp only [specLocalAngle, specSectorCenter, specSector, jsMod]
    ring
  constructor
  · simp only [isInsideOctagon, isInsideOctagonSpec, hkey]
    rw [mul_comm]
  · have hb : (0:ℝ) < Real.pi / 4 := by positivity
    have h0 := jsMod_nonneg (atan2 y x + Real.pi) _ hb
    have h1 := jsMod_lt (atan2 y x + Real.pi) _ hb
    rw [hkey]
    constructor
    · have : Real.pi / 4 / 2 = Real.pi / 8 := by ring
      linarith
    · have : Real.pi / 4 / 2 = Real.pi / 8 := by ring
      linarith

/-! ## Internal network node generation
(NeuralNetwork.createInternalNetwork, PostProcessing.js lines 667-749)

The generator collects 2D candidate points from three strategies (4
concentric rings with angular jitter, two inward projections of each
octagon vertex, random interior points filtered through
isInsideOctagon), then deduplicates them by the rounded-string key
x.toFixed(3) + comma + y.toFixed(3) and creates one node per unique
key.  The Math.random() stream is consumed in order: one jitter draw
per ring point (80 draws), none for the vertex projections, then two
draws (angle, radius) per random candidate. -/

/-- nodeCount = Math.min(Math.floor(particleCount / 20), 200), line 670. -/
def nodeCountOf (particleCount : ℕ) : ℕ := min (particleCount / 20) 200

/-- The (ring, i) index pairs of the concentric-ring strategy (lines
675-687): rings 1..4, ring * 8 points in ring. -/
def ringSpec : List (ℕ × ℕ) :=
  (List.range 4).flatMap (fun r => (List.range ((r + 1) * 8)).map (fun i => (r + 1, i)))

/-- Position of the jitter draw of ring point (ring, i) in the
Math.random() stream: rings are generated in order with 8, 16, 24, 32
points. -/
def jitterIdx : ℕ × ℕ → ℕ
  | (ring, i) => 4 * (ring - 1) * ring + i

/-- One ring point (lines 676-686): radius (ring/rings) * innerRadius
with rings = 4 and innerRadius = 6, angle (i / pointsInRing) * 2π plus
the jitter (rand - 0.5) * 0.5. -/
noncomputable def ringPoint (rand : ℕ → ℝ) : ℕ × ℕ → ℝ × ℝ
  | (ring, i) =>
    let radius := ((ring : ℝ) / 4) * 6
    let jitter := (rand (jitterIdx (ring, i)) - 1/2) * (1/2)
    let angle := ((i : ℝ) / (((ring * 8 : ℕ)) : ℝ)) * (Real.pi * 2) + jitter
    (Real.cos angle * radius, Real.sin angle * radius)

/-- The octagon-vertex projections (lines 690-693): each vertex scaled
by 0.7 and by 0.4. -/
noncomputable def vertexPts : List (ℝ × ℝ) :=
  (List.range 8).flatMap (fun k =>
    [((octagonVertex3 k).x * 0.7, (octagonVertex3 k).y * 0.7),
     ((octagonVertex3 k).x * 0.4, (octagonVertex3 k).y * 0.4)])

open scoped Classical in
/-- One random interior candidate (lines 696-705): random angle, random
radius up to innerRadius * 0.8, kept only when isInsideOctagon accepts
it.  j is the loop index; the two draws sit at stream positions
80 + 2j and 80 + 2j + 1. -/
noncomputable def candidatePt (rand : ℕ → ℝ) (j : ℕ) : Option (ℝ × ℝ) :=
  let angle := rand (80 + 2*j) * Real.pi * 2
  let radius := rand (80 + 2*j + 1) * 6 * 0.8
  let x := Real.cos angle * radius
  let y := Real.sin angle * radius
  if isInsideOctagon x y then some (x, y) else none

/-- The random-candidate loop: i < nodeCount / 2 with float division, so
ceil(nodeCount / 2) iterations. -/
noncomputable def candidatePts (rand : ℕ → ℝ) (particleCount : ℕ) : List (ℝ × ℝ) :=
  (List.range ((nodeCountOf particleCount + 1) / 2)).filterMap (candidatePt rand)

/-- All candidate points in generation order. -/
noncomputable def networkPoints (rand : ℕ → ℝ) (particleCount : ℕ) : List (ℝ × ℝ) :=
  ringSpec.map (ringPoint rand) ++ vertexPts ++ candidatePts rand particleCount

/-- The dedup key of a point, modelling the string
x.toFixed(3) + comma + y.toFixed(3) (line 714) as the pair of
values rounded to 3 decimal places (scaled to integers).  Two keys are
equal exactly when both rounded coordinates agree; no generated
coordinate is a rounding half-way case or a negative zero, so the
string and the rounded pair induce the same partition. -/
noncomputable def jsKey (p : ℝ × ℝ) : ℤ × ℤ := (round (1000 * p.1), round (1000 * p.2))

/-- The number of nodes created (lines 711-727): one per unique key. -/
noncomputable def numNodes (rand : ℕ → ℝ) (particleCount : ℕ) : ℕ :=
  ((networkPoints rand particleCount).map jsKey).dedup.length

/-- The normalized min-max edge key of the triangulation edges
(line 735). -/
def edgeKey (a b : ℕ) : ℕ × ℕ := (min a b, max a b)

/-- The deduplicated edge set built from the Delaunay triangle list
(lines 730-738); the triangle list itself is produced by the external
Delaunator library and is a parameter here. -/
def edgeKeys (tris : List (ℕ × ℕ × ℕ)) : List (ℕ × ℕ) :=
  (tris.flatMap (fun t => [edgeKey t.1 t.2.1, edgeKey t.2.1 t.2.2, edgeKey t.2.2 t.1])).dedup

/-! ### The inside test accepts every generated point -/

theorem inside_of_sq_le (x y : ℝ) (h : x^2 + y^2 ≤ (38/5)^2) : isInsideOctagon x y := by
  have hb : (0:ℝ) < Real.pi / 4 := by positivity
  have hL0 := jsMod_nonneg (atan2 y x + Real.pi) (Real.pi/4) hb
  have hL1 := jsMod_lt (atan2 y x + Real.pi) (Real.pi/4) hb
  have hpi := Real.pi_pos
  have hcpos : 0 < Real.cos (jsMod (atan2 y x + Real.pi) (Real.pi/4) - (Real.pi/4)/2) := by
    apply Real.cos_pos_of_mem_Ioo
    constructor
    · show -(Real.pi/2) < jsMod (atan2 y x + Real.pi) (Real.pi/4) - (Real.pi/4)/2
      linarith
    · show jsMod (atan2 y x + Real.pi) (Real.pi/4) - (Real.pi/4)/2 < Real.pi/2
      linarith
  have hcle : Real.cos (jsMod (atan2 y x + Real.pi) (Real.pi/4) - (Real.pi/4)/2) ≤ 1 :=
    Real.cos_le_one _
  have hdiv : (8:ℝ) ≤ 8 / Real.cos (jsMod (atan2 y x + Real.pi) (Real.pi/4) - (Real.pi/4)/2) := by
    rw [le_div_iff hcpos]
    nlinarith
  have hsqrt : Real.sqrt (x^2 + y^2) ≤ 38/5 := by
    calc Real.sqrt (x^2 + y^2) ≤ Real.sqrt ((38/5)^2) := Real.sqrt_le_sqrt h
      _ = 38/5 := Real.sqrt_sq (by norm_num)
  show Real.sqrt (x^2 + y^2) ≤
    (8 / Real.cos (jsMod (atan2 y x + Real.pi) (Real.pi/4) - (Real.pi/4)/2)) * 0.95
  nlinarith

theorem ringSpec_shape (ri : ℕ × ℕ) (h : ri ∈ ringSpec) :
    ∃ r i : ℕ, r < 4 ∧ ri = (r + 1, i) := by
  simp only [ringSpec, List.mem_flatMap, List.mem_map, List.mem_range] at h
  obtain ⟨r, hr, i, _, hri⟩ := h
  exact ⟨r, i, hr, hri.symm⟩

theorem scaled_circle_sq (a R : ℝ) :
    (Real.cos a * R)^2 + (Real.sin a * R)^2 = R^2 := by
  have hid := Real.sin_sq_add_cos_sq a
  calc (Real.cos a * R)^2 + (Real.sin a * R)^2
      = (Real.sin a ^ 2 + Real.cos a ^ 2) * R^2 := by ring
    _ = 1 * R^2 := by rw [hid]
    _ = R^2 := one_mul _

theorem ringPoint_inside (rand : ℕ → ℝ) (ri : ℕ × ℕ) (h : ri ∈ ringSpec) :
    isInsideOctagon (ringPoint rand ri).1 (ringPoint rand ri).2 := by
  obtain ⟨r, i, hr, rfl⟩ := ringSpec_shape ri h
  apply inside_of_sq_le
  simp only [ringPoint]
  rw [scaled_circle_sq]
  have hR1 : (((r:ℕ) + 1 : ℕ) : ℝ) ≤ 4 := by
    push_cast
    have : (r : ℝ) ≤ 3 := by exact_mod_cast Nat.lt_succ_iff.mp hr
    linarith
  have hR0 : (0:ℝ) ≤ (((r:ℕ) + 1 : ℕ) : ℝ) := by positivity
  nlinarith [hR1, hR0]

theorem vertexPts_inside (p : ℝ × ℝ) (h : p ∈ vertexPts) :
    isInsideOctagon p.1 p.2 := by
  obtain ⟨k, _, hp⟩ := List.mem_flatMap.mp h
  simp only [List.mem_cons, List.not_mem_nil, or_false] at hp
  have hsq := scaled_circle_sq ((k : ℝ) * (Real.pi * 2) / 8)
  rcases hp with rfl | rfl
  · apply inside_of_sq_le
    simp only [octagonVertex3]
    have h8 := hsq 8
    nlinarith [h8]
  · apply inside_of_sq_le
    simp only [octagonVertex3]
    have h8 := hsq 8
    nlinarith [h8]

theorem candidatePts_inside (rand : ℕ → ℝ) (pc : ℕ) (p : ℝ × ℝ)
    (h : p ∈ candidatePts rand pc) : isInsideOctagon p.1 p.2 := by
  obtain ⟨j, _, hcp⟩ := List.mem_filterMap.mp h
  simp only [candidatePt] at hcp
  split_ifs at hcp with hin
  · cases hcp
    exact hin

theorem networkPoints_inside (rand : ℕ → ℝ) (pc : ℕ) (p : ℝ × ℝ)
    (h : p ∈ networkPoints rand pc) : isInsideOctagon p.1 p.2 := by
  simp only [networkPoints, List.mem_append] at h
  rcases h with (h | h) | h
  · obtain ⟨ri, hri, rfl⟩ := List.mem_map.mp h
    exact ringPoint_inside rand ri hri
  · exact vertexPts_inside p h
  · exact candidatePts_inside rand pc p h

/-! ### Size bounds -/

theorem ringSpec_length : ringSpec.length = 80 := by decide

theorem vertexPts_length : vertexPts.length = 16 := by
  simp [vertexPts, List.length_flatMap]
  rfl

theorem candidatePts_length_le (rand : ℕ → ℝ) :
    (candidatePts rand 1000).length ≤ 25 := by
  unfold candidatePts
  calc ((List.range ((nodeCountOf 1000 + 1) / 2)).filterMap (candidatePt rand)).length
      ≤ (List.range ((nodeCountOf 1000 + 1) / 2)).length :=
        List.length_filterMap_le _ _
    _ = 25 := by norm_num [nodeCountOf]

theorem numNodes_le_121 (rand : ℕ → ℝ) : numNodes rand 1000 ≤ 121 := by
  unfold numNodes
  have h1 : ((networkPoints rand 1000).map jsKey).dedup.length ≤
      ((networkPoints rand 1000).map jsKey).length :=
    (List.dedup_sublist _).length_le
  rw [List.length_map] at h1
  have h2 : (networkPoints rand 1000).length =
      96 + (candidatePts rand 1000).length := by
    simp [networkPoints, ringSpec_length, vertexPts_length]
    omega
  have h3 := candidatePts_length_le rand
  omega

/-! ### The node count exceeds the target: a concrete random stream

With every Math.random() draw equal to 1/2, the ring jitters vanish and
all random candidates coincide; the generated points then contain 51
points with pairwise distinct dedup keys, so more than 50 nodes are
created (the target count for particleCount = 1000 is 50). -/

/-- The random stream whose every draw is 1/2. -/
noncomputable def halfStream : ℕ → ℝ := fun _ => 1/2

theorem sqrt2_gt : (1.41421 : ℝ) < Real.sqrt 2 := by
  have h := Real.sq_sqrt (by norm_num : (0:ℝ) ≤ 2)
  have hnn := Real.sqrt_nonneg 2
  nlinarith

theorem sqrt2_lt : Real.sqrt 2 < (1.41422 : ℝ) := by
  have h := Real.sq_sqrt (by norm_num : (0:ℝ) ≤ 2)
  have hnn := Real.sqrt_nonneg 2
  nlinarith

theorem sqrt3_gt : (1.732 : ℝ) < Real.sqrt 3 := by
  have h := Real.sq_sqrt (by norm_num : (0:ℝ) ≤ 3)
  have hnn := Real.sqrt_nonneg 3
  nlinarith

theorem sqrt3_lt : Real.sqrt 3 < (1.7321 : ℝ) := by
  have h := Real.sq_sqrt (by norm_num : (0:ℝ) ≤ 3)
  have hnn := Real.sqrt_nonneg 3
  nlinarith

theorem round_eq_of_bounds (x : ℝ) (n : ℤ) (h1 : (n:ℝ) - 1/2 ≤ x)
    (h2 : x < (n:ℝ) + 1/2) : round x = n := by
  rw [round_eq]
  apply Int.floor_eq_iff.mpr
  constructor
  · push_cast
    linarith
  · push_cast
    linarith

theorem jsKey_eq (x y : ℝ) (n m : ℤ)
    (h1 : (n:ℝ) - 1/2 ≤ 1000 * x) (h2 : 1000 * x < (n:ℝ) + 1/2)
    (h3 : (m:ℝ) - 1/2 ≤ 1000 * y) (h4 : 1000 * y < (m:ℝ) + 1/2) :
    jsKey (x, y) = (n, m) := by
  simp only [jsKey]
  rw [round_eq_of_bounds (1000 * x) n h1 h2, round_eq_of_bounds (1000 * y) m h3 h4]

theorem cos_3pi4 : Real.cos (3*Real.pi/4) = -(Real.sqrt 2/2) := by
  rw [show (3:ℝ)*Real.pi/4 = Real.pi - Real.pi/4 from by ring, Real.cos_pi_sub,
    Real.cos_pi_div_four]

theorem sin_3pi4 : Real.sin (3*Real.pi/4) = Real.sqrt 2/2 := by
  rw [show (3:ℝ)*Real.pi/4 = Real.pi - Real.pi/4 from by ring, Real.sin_pi_sub,
    Real.sin_pi_div_four]

theorem cos_5pi4 : Real.cos (5*Real.pi/4) = -(Real.sqrt 2/2) := by
  rw [show (5:ℝ)*Real.pi/4 = Real.pi + Real.pi/4 from by ring, Real.cos_add,
    Real.cos_pi, Real.sin_pi, Real.cos_pi_div_four]
  ring

theorem sin_5pi4 : Real.sin (5*Real.pi/4) = -(Real.sqrt 2/2) := by
  rw [show (5:ℝ)*Real.pi/4 = Real.pi + Real.pi/4 from by ring, Real.sin_add,
    Real.cos_pi, Real.sin_pi, Real.sin_pi_div_four]
  ring

theorem cos_3pi2 : Real.cos (3*Real.pi/2) = 0 := by
  rw [show (3:ℝ)*Real.pi/2 = Real.pi + Real.pi/2 from by ring, Real.cos_add,
    Real.cos_pi, Real.sin_pi, Real.cos_pi_div_two]
  ring

theorem sin_3pi2 : Real.sin (3*Real.pi/2) = -1 := by
  rw [show (3:ℝ)*Real.pi/2 = Real.pi + Real.pi/2 from by ring, Real.sin_add,
    Real.cos_pi, Real.sin_pi, Real.sin_pi_div_two]
  ring

theorem cos_7pi4 : Real.cos (7*Real.pi/4) = Real.sqrt 2/2 := by
  rw [show (7:ℝ)*Real.pi/4 = Real.pi + 3*Real.pi/4 from by ring, Real.cos_add,
    Real.cos_pi, Real.sin_pi, cos_3pi4]
  ring

theorem sin_7pi4 : Real.sin (7*Real.pi/4) = -(Real.sqrt 2/2) := by
  rw [show (7:ℝ)*Real.pi/4 = Real.pi + 3*Real.pi/4 from by ring, Real.sin_add,
    Real.cos_pi, Real.sin_pi, sin_3pi4]
  ring

/-- On the all-1/2 stream the jitter vanishes: a ring point is the pure
circle point of its nominal angle. -/
theorem ringPoint_half_eq (r i : ℕ) (θ : ℝ)
    (hθ : ((i : ℝ) / (((r * 8 : ℕ)) : ℝ)) * (Real.pi * 2) + ((1:ℝ)/2 - 1/2) * (1/2) = θ) :
    ringPoint halfStream (r, i) =
      (Real.cos θ * (((r:ℕ) : ℝ) / 4 * 6), Real.sin θ * (((r:ℕ) : ℝ) / 4 * 6)) := by
  simp only [ringPoint, halfStream]
  rw [hθ]

/-- Every ring point of the spec list is among the generated points. -/
theorem mem_ring (ri : ℕ × ℕ) (h : ri ∈ ringSpec) :
    ringPoint halfStream ri ∈ networkPoints halfStream 1000 :=
  List.mem_append_left _ (List.mem_append_left _ (List.mem_map_of_mem _ h))

/-- The 0.7-scaled projection of vertex k is among the generated points. -/
theorem mem_v7 (k : ℕ) (h : k < 8) :
    ((octagonVertex3 k).x * 0.7, (octagonVertex3 k).y * 0.7) ∈
      networkPoints halfStream 1000 := by
  refine List.mem_append_left _ (List.mem_append_right _ ?_)
  exact List.mem_flatMap.mpr ⟨k, List.mem_range.mpr h, by simp⟩

/-- The 0.4-scaled projection of vertex k is among the generated points. -/
theorem mem_v4 (k : ℕ) (h : k < 8) :
    ((octagonVertex3 k).x * 0.4, (octagonVertex3 k).y * 0.4) ∈
      networkPoints halfStream 1000 := by
  refine List.mem_append_left _ (List.mem_append_right _ ?_)
  exact List.mem_flatMap.mpr ⟨k, List.mem_range.mpr h, by simp⟩

/-- On the all-1/2 stream the first random candidate is accepted and is
the point (-2.4, 0). -/
theorem candidate_half : candidatePt halfStream 0 = some (-(12/5), 0) := by
  have hin : isInsideOctagon (Real.cos ((1:ℝ)/2 * Real.pi * 2) * ((1:ℝ)/2 * 6 * 0.8))
      (Real.sin ((1:ℝ)/2 * Real.pi * 2) * ((1:ℝ)/2 * 6 * 0.8)) := by
    rw [show (1:ℝ)/2 * Real.pi * 2 = Real.pi from by ring, Real.cos_pi, Real.sin_pi]
    apply inside_of_sq_le
    norm_num
  simp only [candidatePt, halfStream]
  rw [if_pos hin]
  rw [show (1:ℝ)/2 * Real.pi * 2 = Real.pi from by ring, Real.cos_pi, Real.sin_pi]
  norm_num

/-- The point (-2.4, 0) is among the generated points. -/
theorem mem_candidate : (-(12/5), (0:ℝ)) ∈ networkPoints halfStream 1000 := by
  refine List.mem_append_right _ ?_
  refine List.mem_filterMap.mpr ⟨0, ?_, ?_⟩
  · refine List.mem_range.mpr ?_
    norm_num [nodeCountOf]
  · exact candidate_half

/-- Sample key-membership lemma: ring 1 point 0 has key (1500, 0). -/
theorem kmem_r1_i0 : ((1500:ℤ), (0:ℤ)) ∈ (networkPoints halfStream 1000).map jsKey := by
  refine List.mem_map.mpr ⟨_, mem_ring (1, 0) (by decide), ?_⟩
  rw [ringPoint_half_eq 1 0 0 (by push_cast; ring), Real.cos_zero, Real.sin_zero]
  apply jsKey_eq <;> push_cast <;> norm_num

/-- Sample key-membership lemma: ring 2 point 2 (angle π/4) has key
(2121, 2121). -/
theorem kmem_r2_i2 : ((2121:ℤ), (2121:ℤ)) ∈ (networkPoints halfStream 1000).map jsKey := by
  refine List.mem_map.mpr ⟨_, mem_ring (2, 2) (by decide), ?_⟩
  rw [ringPoint_half_eq 2 2 (Real.pi/4) (by push_cast; ring), Real.cos_pi_div_four,
    Real.sin_pi_div_four]
  apply jsKey_eq <;> push_cast <;> linarith [sqrt2_gt, sqrt2_lt]

theorem kmem_r1_i1 : ((1061:ℤ), (1061:ℤ)) ∈ (networkPoints halfStream 1000).map jsKey := by
  refine List.mem_map.mpr ⟨_, mem_ring (1, 1) (by decide), ?_⟩
  rw [ringPoint_half_eq 1 1 (Real.pi/4) (by push_cast; ring), Real.cos_pi_div_four,
    Real.sin_pi_div_four]
  apply jsKey_eq <;> push_cast <;> linarith [sqrt2_gt, sqrt2_lt]

theorem kmem_r1_i2 : ((0:ℤ), (1500:ℤ)) ∈ (networkPoints halfStream 1000).map jsKey := by
  refine List.mem_map.mpr ⟨_, mem_ring (1, 2) (by decide), ?_⟩
  rw [ringPoint_half_eq 1 2 (Real.pi/2) (by push_cast; ring), Real.cos_pi_div_two,
    Real.sin_pi_div_two]
  apply jsKey_eq <;> push_cast <;> norm_num

theorem kmem_r1_i3 : ((-1061:ℤ), (1061:ℤ)) ∈ (networkPoints halfStream 1000).map jsKey := by
  refine List.mem_map.mpr ⟨_, mem_ring (1, 3) (by decide), ?_⟩
  rw [ringPoint_half_eq 1 3 (3*Real.pi/4) (by push_cast; ring), cos_3pi4,
    sin_3pi4]
  apply jsKey_eq <;> push_cast <;> linarith [sqrt2_gt, sqrt2_lt]

theorem kmem_r1_i4 : ((-1500:ℤ), (0:ℤ)) ∈ (networkPoints halfStream 1000).map jsKey := by
  refine List.mem_map.mpr ⟨_, mem_ring (1, 4) (by decide), ?_⟩
  rw [ringPoint_half_eq 1 4 (Real.pi) (by push_cast; ring), Real.cos_pi,
    Real.sin_pi]
  apply jsKey_eq <;> push_cast <;> norm_num

theorem kmem_r1_i5 : ((-1061:ℤ), (-1061:ℤ)) ∈ (networkPoints halfStream 1000).map jsKey := by
  refine List.mem_map.mpr ⟨_, mem_ring (1, 5) (by decide), ?_⟩
  rw [ringPoint_half_eq 1 5 (5*Real.pi/4) (by push_cast; ring), cos_5pi4,
    sin_5pi4]
  apply jsKey_eq <;> push_cast <;> linarith [sqrt2_gt, sqrt2_lt]

theorem kmem_r1_i6 : ((0:ℤ), (-1500:ℤ)) ∈ (networkPoints halfStream 1000).map jsKey := by
  refine List.mem_map.mpr ⟨_, mem_ring (1, 6) (by decide), ?_⟩
  rw [ringPoint_half_eq 1 6 (3*Real.pi/2) (by push_cast; ring), cos_3pi2,
    sin_3pi2]
  apply jsKey_eq <;> push_cast <;> norm_num

theorem kmem_r1_i7 : ((1061:ℤ), (-1061:ℤ)) ∈ (networkPoints halfStream 1000).map jsKey := by
  refine List.mem_map.mpr ⟨_, mem_ring (1, 7) (by decide), ?_⟩
  rw [ringPoint_half_eq 1 7 (7*Real.pi/4) (by push_cast; ring), cos_7pi4,
    sin_7pi4]
  apply jsKey_eq <;> push_cast <;> linarith [sqrt2_gt, sqrt2_lt]

theorem kmem_r2_i0 : ((3000:ℤ), (0:ℤ)) ∈ (networkPoints halfStream 1000).map jsKey := by
  refine List.mem_map.mpr ⟨_, mem_ring (2, 0) (by decide), ?_⟩
  rw [ringPoint_half_eq 2 0 (0) (by push_cast; ring), Real.cos_zero,
    Real.sin_zero]
  apply jsKey_eq <;> push_cast <;> norm_num

theorem kmem_r2_i4 : ((0:ℤ), (3000:ℤ)) ∈ (networkPoints halfStream 1000).map jsKey := by
  refine List.mem_map.mpr ⟨_, mem_ring (2, 4) (by decide), ?_⟩
  rw [ringPoint_half_eq 2 4 (Real.pi/2) (by push_cast; ring), Real.cos_pi_div_two,
    Real.sin_pi_div_two]
  apply jsKey_eq <;> push_cast <;> norm_num

theorem kmem_r2_i6 : ((-2121:ℤ), (2121:ℤ)) ∈ (networkPoints halfStream 1000).map jsKey := by
  refine List.mem_map.mpr ⟨_, mem_ring (2, 6) (by decide), ?_⟩
  rw [ringPoint_half_eq 2 6 (3*Real.pi/4) (by push_cast; ring), cos_3pi4,
    sin_3pi4]
  apply jsKey_eq <;> push_cast <;> linarith [sqrt2_gt, sqrt2_lt]

theorem kmem_r2_i8 : ((-3000:ℤ), (0:ℤ)) ∈ (networkPoints halfStream 1000).map jsKey := by
  refine List.mem_map.mpr ⟨_, mem_ring (2, 8) (by decide), ?_⟩
  rw [ringPoint_half_eq 2 8 (Real.pi) (by push_cast; ring), Real.cos_pi,
    Real.sin_pi]
  apply jsKey_eq <;> push_cast <;> norm_num

theorem kmem_r2_i10 : ((-2121:ℤ), (-2121:ℤ)) ∈ (networkPoints halfStream 1000).map jsKey := by
  refine List.mem_map.mpr ⟨_, mem_ring (2, 10) (by decide), ?_⟩
  rw [ringPoint_half_eq 2 10 (5*Real.pi/4) (by push_cast; ring), cos_5pi4,
    sin_5pi4]
  apply jsKey_eq <;> push_cast <;> linarith [sqrt2_gt, sqrt2_lt]

theorem kmem_r2_i12 : ((0:ℤ), (-3000:ℤ)) ∈ (networkPoints halfStream 1000).map jsKey := by
  refine List.mem_map.mpr ⟨_, mem_ring (2, 12) (by decide), ?_⟩
  rw [ringPoint_half_eq 2 12 (3*Real.pi/2) (by push_cast; ring), cos_3pi2,
    sin_3pi2]
  apply jsKey_eq <;> push_cast <;> norm_num

theorem kmem_r2_i14 : ((2121:ℤ), (-2121:ℤ)) ∈ (networkPoints halfStream 1000).map jsKey := by
  refine List.mem_map.mpr ⟨_, mem_ring (2, 14) (by decide), ?_⟩
  rw [ringPoint_half_eq 2 14 (7*Real.pi/4) (by push_cast; ring), cos_7pi4,
    sin_7pi4]
  apply jsKey_eq <;> push_cast <;> linarith [sqrt2_gt, sqrt2_lt]

theorem kmem_r3_i0 : ((4500:ℤ), (0:ℤ)) ∈ (networkPoints halfStream 1000).map jsKey := by
  refine List.mem_map.mpr ⟨_, mem_ring (3, 0) (by decide), ?_⟩
  rw [ringPoint_half_eq 3 0 (0) (by push_cast; ring), Real.cos_zero,
    Real.sin_zero]
  apply jsKey_eq <;> push_cast <;> norm_num

theorem kmem_r3_i3 : ((3182:ℤ), (3182:ℤ)) ∈ (networkPoints halfStream 1000).map jsKey := by
  refine List.mem_map.mpr ⟨_, mem_ring (3, 3) (by decide), ?_⟩
  rw [ringPoint_half_eq 3 3 (Real.pi/4) (by push_cast; ring), Real.cos_pi_div_four,
    Real.sin_pi_div_four]
  apply jsKey_eq <;> push_cast <;> linarith [sqrt2_gt, sqrt2_lt]

theorem kmem_r3_i6 : ((0:ℤ), (4500:ℤ)) ∈ (networkPoints halfStream 1000).map jsKey := by
  refine List.mem_map.mpr ⟨_, mem_ring (3, 6) (by decide), ?_⟩
  rw [ringPoint_half_eq 3 6 (Real.pi/2) (by push_cast; ring), Real.cos_pi_div_two,
    Real.sin_pi_div_two]
  apply jsKey_eq <;> push_cast <;> norm_num

theorem kmem_r3_i9 : ((-3182:ℤ), (3182:ℤ)) ∈ (networkPoints halfStream 1000).map jsKey := by
  refine List.mem_map.mpr ⟨_, mem_ring (3, 9) (by decide), ?_⟩
  rw [ringPoint_half_eq 3 9 (3*Real.pi/4) (by push_cast; ring), cos_3pi4,
    sin_3pi4]
  apply jsKey_eq <;> push_cast <;> linarith [sqrt2_gt, sqrt2_lt]

theorem kmem_r3_i12 : ((-4500:ℤ), (0:ℤ)) ∈ (networkPoints halfStream 1000).map jsKey := by
  refine List.mem_map.mpr ⟨_, mem_ring (3, 12) (by decide), ?_⟩
  rw [ringPoint_half_eq 3 12 (Real.pi) (by push_cast; ring), Real.cos_pi,
    Real.sin_pi]
  apply jsKey_eq <;> push_cast <;> norm_num

theorem kmem_r3_i15 : ((-3182:ℤ), (-3182:ℤ)) ∈ (networkPoints halfStream 1000).map jsKey := by
  refine List.mem_map.mpr ⟨_, mem_ring (3, 15) (by decide), ?_⟩
  rw [ringPoint_half_eq 3 15 (5*Real.pi/4) (by push_cast; ring), cos_5pi4,
    sin_5pi4]
  apply jsKey_eq <;> push_cast <;> linarith [sqrt2_gt, sqrt2_lt]

theorem kmem_r3_i18 : ((0:ℤ), (-4500:ℤ)) ∈ (networkPoints halfStream 1000).map jsKey := by
  refine List.mem_map.mpr ⟨_, mem_ring (3, 18) (by decide), ?_⟩
  rw [ringPoint_half_eq 3 18 (3*Real.pi/2) (by push_cast; ring), cos_3pi2,
    sin_3pi2]
  apply jsKey_eq <;> push_cast <;> norm_num

theorem kmem_r3_i21 : ((3182:ℤ), (-3182:ℤ)) ∈ (networkPoints halfStream 1000).map jsKey := by
  refine List.mem_map.mpr ⟨_, mem_ring (3, 21) (by decide), ?_⟩
  rw [ringPoint_half_eq 3 21 (7*Real.pi/4) (by push_cast; ring), cos_7pi4,
    sin_7pi4]
  apply jsKey_eq <;> push_cast <;> linarith [sqrt2_gt, sqrt2_lt]

theorem kmem_r4_i0 : ((6000:ℤ), (0:ℤ)) ∈ (networkPoints halfStream 1000).map jsKey := by
  refine List.mem_map.mpr ⟨_, mem_ring (4, 0) (by decide), ?_⟩
  rw [ringPoint_half_eq 4 0 (0) (by push_cast; ring), Real.cos_zero,
    Real.sin_zero]
  apply jsKey_eq <;> push_cast <;> norm_num

theorem kmem_r4_i4 : ((4243:ℤ), (4243:ℤ)) ∈ (networkPoints halfStream 1000).map jsKey := by
  refine List.mem_map.mpr ⟨_, mem_ring (4, 4) (by decide), ?_⟩
  rw [ringPoint_half_eq 4 4 (Real.pi/4) (by push_cast; ring), Real.cos_pi_div_four,
    Real.sin_pi_div_four]
  apply jsKey_eq <;> push_cast <;> linarith [sqrt2_gt, sqrt2_lt]

theorem kmem_r4_i8 : ((0:ℤ), (6000:ℤ)) ∈ (networkPoints halfStream 1000).map jsKey := by
  refine List.mem_map.mpr ⟨_, mem_ring (4, 8) (by decide), ?_⟩
  rw [ringPoint_half_eq 4 8 (Real.pi/2) (by push_cast; ring), Real.cos_pi_div_two,
    Real.sin_pi_div_two]
  apply jsKey_eq <;> push_cast <;> norm_num

theorem kmem_r4_i12 : ((-4243:ℤ), (4243:ℤ)) ∈ (networkPoints halfStream 1000).map jsKey := by
  refine List.mem_map.mpr ⟨_, mem_ring (4, 12) (by decide), ?_⟩
  rw [ringPoint_half_eq 4 12 (3*Real.pi/4) (by push_cast; ring), cos_3pi4,
    sin_3pi4]
  apply jsKey_eq <;> push_cast <;> linarith [sqrt2_gt, sqrt2_lt]

theorem kmem_r4_i16 : ((-6000:ℤ), (0:ℤ)) ∈ (networkPoints halfStream 1000).map jsKey := by
  refine List.mem_map.mpr ⟨_, mem_ring (4, 16) (by decide), ?_⟩
  rw [ringPoint_half_eq 4 16 (Real.pi) (by push_cast; ring), Real.cos_pi,
    Real.sin_pi]
  apply jsKey_eq <;> push_cast <;> norm_num

theorem kmem_r4_i20 : ((-4243:ℤ), (-4243:ℤ)) ∈ (networkPoints halfStream 1000).map jsKey := by
  refine List.mem_map.mpr ⟨_, mem_ring (4, 20) (by decide), ?_⟩
  rw [ringPoint_half_eq 4 20 (5*Real.pi/4) (by push_cast; ring), cos_5pi4,
    sin_5pi4]
  apply jsKey_eq <;> push_cast <;> linarith [sqrt2_gt, sqrt2_lt]

theorem kmem_r4_i24 : ((0:ℤ), (-6000:ℤ)) ∈ (networkPoints halfStream 1000).map jsKey := by
  refine List.mem_map.mpr ⟨_, mem_ring (4, 24) (by decide), ?_⟩
  rw [ringPoint_half_eq 4 24 (3*Real.pi/2) (by push_cast; ring), cos_3pi2,
    sin_3pi2]
  apply jsKey_eq <;> push_cast <;> norm_num

theorem kmem_r4_i28 : ((4243:ℤ), (-4243:ℤ)) ∈ (networkPoints halfStream 1000).map jsKey := by
  refine List.mem_map.mpr ⟨_, mem_ring (4, 28) (by decide), ?_⟩
  rw [ringPoint_half_eq 4 28 (7*Real.pi/4) (by push_cast; ring), cos_7pi4,
    sin_7pi4]
  apply jsKey_eq <;> push_cast <;> linarith [sqrt2_gt, sqrt2_lt]

theorem kmem_v7_k0 : ((5600:ℤ), (0:ℤ)) ∈ (networkPoints halfStream 1000).map jsKey := by
  refine List.mem_map.mpr ⟨_, mem_v7 0 (by norm_num), ?_⟩
  simp only [octagonVertex3]
  rw [show ((0:ℕ):ℝ) * (Real.pi * 2) / 8 = 0 from by push_cast; ring, Real.cos_zero,
    Real.sin_zero]
  apply jsKey_eq <;> push_cast <;> norm_num

theorem kmem_v7_k1 : ((3960:ℤ), (3960:ℤ)) ∈ (networkPoints halfStream 1000).map jsKey := by
  refine List.mem_map.mpr ⟨_, mem_v7 1 (by norm_num), ?_⟩
  simp only [octagonVertex3]
  rw [show ((1:ℕ):ℝ) * (Real.pi * 2) / 8 = Real.pi/4 from by push_cast; ring, Real.cos_pi_div_four,
    Real.sin_pi_div_four]
  apply jsKey_eq <;> push_cast <;> linarith [sqrt2_gt, sqrt2_lt]

theorem kmem_v7_k2 : ((0:ℤ), (5600:ℤ)) ∈ (networkPoints halfStream 1000).map jsKey := by
  refine List.mem_map.mpr ⟨_, mem_v7 2 (by norm_num), ?_⟩
  simp only [octagonVertex3]
  rw [show ((2:ℕ):ℝ) * (Real.pi * 2) / 8 = Real.pi/2 from by push_cast; ring, Real.cos_pi_div_two,
    Real.sin_pi_div_two]
  apply jsKey_eq <;> push_cast <;> norm_num

theorem kmem_v7_k3 : ((-3960:ℤ), (3960:ℤ)) ∈ (networkPoints halfStream 1000).map jsKey := by
  refine List.mem_map.mpr ⟨_, mem_v7 3 (by norm_num), ?_⟩
  simp only [octagonVertex3]
  rw [show ((3:ℕ):ℝ) * (Real.pi * 2) / 8 = 3*Real.pi/4 from by push_cast; ring, cos_3pi4,
    sin_3pi4]
  apply jsKey_eq <;> push_cast <;> linarith [sqrt2_gt, sqrt2_lt]

theorem kmem_v7_k4 : ((-5600:ℤ), (0:ℤ)) ∈ (networkPoints halfStream 1000).map jsKey := by
  refine List.mem_map.mpr ⟨_, mem_v7 4 (by norm_num), ?_⟩
  simp only [octagonVertex3]
  rw [show ((4:ℕ):ℝ) * (Real.pi * 2) / 8 = Real.pi from by push_cast; ring, Real.cos_pi,
    Real.sin_pi]
  apply jsKey_eq <;> push_cast <;> norm_num

theorem kmem_v7_k5 : ((-3960:ℤ), (-3960:ℤ)) ∈ (networkPoints halfStream 1000).map jsKey := by
  refine List.mem_map.mpr ⟨_, mem_v7 5 (by norm_num), ?_⟩
  simp only [octagonVertex3]
  rw [show ((5:ℕ):ℝ) * (Real.pi * 2) / 8 = 5*Real.pi/4 from by push_cast; ring, cos_5pi4,
    sin_5pi4]
  apply jsKey_eq <;> push_cast <;> linarith [sqrt2_gt, sqrt2_lt]

theorem kmem_v7_k6 : ((0:ℤ), (-5600:ℤ)) ∈ (networkPoints halfStream 1000).map jsKey := by
  refine List.mem_map.mpr ⟨_, mem_v7 6 (by norm_num), ?_⟩
  simp only [octagonVertex3]
  rw [show ((6:ℕ):ℝ) * (Real.pi * 2) / 8 = 3*Real.pi/2 from by push_cast; ring, cos_3pi2,
    sin_3pi2]
  apply jsKey_eq <;> push_cast <;> norm_num

theorem kmem_v7_k7 : ((3960:ℤ), (-3960:ℤ)) ∈ (networkPoints halfStream 1000).map jsKey := by
  refine List.mem_map.mpr ⟨_, mem_v7 7 (by norm_num), ?_⟩
  simp only [octagonVertex3]
  rw [show ((7:ℕ):ℝ) * (Real.pi * 2) / 8 = 7*Real.pi/4 from by push_cast; ring, cos_7pi4,
    sin_7pi4]
  apply jsKey_eq <;> push_cast <;> linarith [sqrt2_gt, sqrt2_lt]

theorem kmem_v4_k0 : ((3200:ℤ), (0:ℤ)) ∈ (networkPoints halfStream 1000).map jsKey := by
  refine List.mem_map.mpr ⟨_, mem_v4 0 (by norm_num), ?_⟩
  simp only [octagonVertex3]
  rw [show ((0:ℕ):ℝ) * (Real.pi * 2) / 8 = 0 from by push_cast; ring, Real.cos_zero,
    Real.sin_zero]
  apply jsKey_eq <;> push_cast <;> norm_num

theorem kmem_v4_k1 : ((2263:ℤ), (2263:ℤ)) ∈ (networkPoints halfStream 1000).map jsKey := by
  refine List.mem_map.mpr ⟨_, mem_v4 1 (by norm_num), ?_⟩
  simp only [octagonVertex3]
  rw [show ((1:ℕ):ℝ) * (Real.pi * 2) / 8 = Real.pi/4 from by push_cast; ring, Real.cos_pi_div_four,
    Real.sin_pi_div_four]
  apply jsKey_eq <;> push_cast <;> linarith [sqrt2_gt, sqrt2_lt]

theorem kmem_v4_k2 : ((0:ℤ), (3200:ℤ)) ∈ (networkPoints halfStream 1000).map jsKey := by
  refine List.mem_map.mpr ⟨_, mem_v4 2 (by norm_num), ?_⟩
  simp only [octagonVertex3]
  rw [show ((2:ℕ):ℝ) * (Real.pi * 2) / 8 = Real.pi/2 from by push_cast; ring, Real.cos_pi_div_two,
    Real.sin_pi_div_two]
  apply jsKey_eq <;> push_cast <;> norm_num

theorem kmem_v4_k3 : ((-2263:ℤ), (2263:ℤ)) ∈ (networkPoints halfStream 1000).map jsKey := by
  refine List.mem_map.mpr ⟨_, mem_v4 3 (by norm_num), ?_⟩
  simp only [octagonVertex3]
  rw [show ((3:ℕ):ℝ) * (Real.pi * 2) / 8 = 3*Real.pi/4 from by push_cast; ring, cos_3pi4,
    sin_3pi4]
  apply jsKey_eq <;> push_cast <;> linarith [sqrt2_gt, sqrt2_lt]

theorem kmem_v4_k4 : ((-3200:ℤ), (0:ℤ)) ∈ (networkPoints halfStream 1000).map jsKey := by
  refine List.mem_map.mpr ⟨_, mem_v4 4 (by norm_num), ?_⟩
  simp only [octagonVertex3]
  rw [show ((4:ℕ):ℝ) * (Real.pi * 2) / 8 = Real.pi from by push_cast; ring, Real.cos_pi,
    Real.sin_pi]
  apply jsKey_eq <;> push_cast <;> norm_num

theorem kmem_v4_k5 : ((-2263:ℤ), (-2263:ℤ)) ∈ (networkPoints halfStream 1000).map jsKey := by
  refine List.mem_map.mpr ⟨_, mem_v4 5 (by norm_num), ?_⟩
  simp only [octagonVertex3]
  rw [show ((5:ℕ):ℝ) * (Real.pi * 2) / 8 = 5*Real.pi/4 from by push_cast; ring, cos_5pi4,
    sin_5pi4]
  apply jsKey_eq <;> push_cast <;> linarith [sqrt2_gt, sqrt2_lt]

theorem kmem_v4_k6 : ((0:ℤ), (-3200:ℤ)) ∈ (networkPoints halfStream 1000).map jsKey := by
  refine List.mem_map.mpr ⟨_, mem_v4 6 (by norm_num), ?_⟩
  simp only [octagonVertex3]
  rw [show ((6:ℕ):ℝ) * (Real.pi * 2) / 8 = 3*Real.pi/2 from by push_cast; ring, cos_3pi2,
    sin_3pi2]
  apply jsKey_eq <;> push_cast <;> norm_num

theorem kmem_v4_k7 : ((2263:ℤ), (-2263:ℤ)) ∈ (networkPoints halfStream 1000).map jsKey := by
  refine List.mem_map.mpr ⟨_, mem_v4 7 (by norm_num), ?_⟩
  simp only [octagonVertex3]
  rw [show ((7:ℕ):ℝ) * (Real.pi * 2) / 8 = 7*Real.pi/4 from by push_cast; ring, cos_7pi4,
    sin_7pi4]
  apply jsKey_eq <;> push_cast <;> linarith [sqrt2_gt, sqrt2_lt]

theorem kmem_r3_i2 : ((3897:ℤ), (2250:ℤ)) ∈ (networkPoints halfStream 1000).map jsKey := by
  refine List.mem_map.mpr ⟨_, mem_ring (3, 2) (by decide), ?_⟩
  rw [ringPoint_half_eq 3 2 (Real.pi/6) (by push_cast; ring), Real.cos_pi_div_six,
    Real.sin_pi_div_six]
  apply jsKey_eq <;> push_cast <;> linarith [sqrt3_gt, sqrt3_lt]

theorem kmem_r3_i4 : ((2250:ℤ), (3897:ℤ)) ∈ (networkPoints halfStream 1000).map jsKey := by
  refine List.mem_map.mpr ⟨_, mem_ring (3, 4) (by decide), ?_⟩
  rw [ringPoint_half_eq 3 4 (Real.pi/3) (by push_cast; ring), Real.cos_pi_div_three,
    Real.sin_pi_div_three]
  apply jsKey_eq <;> push_cast <;> linarith [sqrt3_gt, sqrt3_lt]

theorem kmem_cand : ((-2400:ℤ), (0:ℤ)) ∈ (networkPoints halfStream 1000).map jsKey := by
  refine List.mem_map.mpr ⟨_, mem_candidate, ?_⟩
  apply jsKey_eq <;> push_cast <;> norm_num

/-- The 51 pairwise-distinct keys exhibited among the generated
points. -/
def L51 : List (ℤ × ℤ) :=
  [(1500, 0),
   (1061, 1061),
   (0, 1500),
   (-1061, 1061),
   (-1500, 0),
   (-1061, -1061),
   (0, -1500),
   (1061, -1061),
   (3000, 0),
   (2121, 2121),
   (0, 3000),
   (-2121, 2121),
   (-3000, 0),
   (-2121, -2121),
   (0, -3000),
   (2121, -2121),
   (4500, 0),
   (3182, 3182),
   (0, 4500),
   (-3182, 3182),
   (-4500, 0),
   (-3182, -3182),
   (0, -4500),
   (3182, -3182),
   (6000, 0),
   (4243, 4243),
   (0, 6000),
   (-4243, 4243),
   (-6000, 0),
   (-4243, -4243),
   (0, -6000),
   (4243, -4243),
   (5600, 0),
   (3960, 3960),
   (0, 5600),
   (-3960, 3960),
   (-5600, 0),
   (-3960, -3960),
   (0, -5600),
   (3960, -3960),
   (3200, 0),
   (2263, 2263),
   (0, 3200),
   (-2263, 2263),
   (-3200, 0),
   (-2263, -2263),
   (0, -3200),
   (2263, -2263),
   (3897, 2250),
   (2250, 3897),
   (-2400, 0)]

theorem L51_sub : ∀ a ∈ L51, a ∈ (networkPoints halfStream 1000).map jsKey := by
  intro a ha
  simp only [L51, List.mem_cons, List.not_mem_nil, or_false] at ha
  rcases ha with rfl|rfl|rfl|rfl|rfl|rfl|rfl|rfl|rfl|rfl|rfl|rfl|rfl|rfl|rfl|rfl|rfl|rfl|rfl|rfl|rfl|rfl|rfl|rfl|rfl|rfl|rfl|rfl|rfl|rfl|rfl|rfl|rfl|rfl|rfl|rfl|rfl|rfl|rfl|rfl|rfl|rfl|rfl|rfl|rfl|rfl|rfl|rfl|rfl|rfl|rfl
  · exact kmem_r1_i0
  · exact kmem_r1_i1
  · exact kmem_r1_i2
  · exact kmem_r1_i3
  · exact kmem_r1_i4
  · exact kmem_r1_i5
  · exact kmem_r1_i6
  · exact kmem_r1_i7
  · exact kmem_r2_i0
  · exact kmem_r2_i2
  · exact kmem_r2_i4
  · exact kmem_r2_i6
  · exact kmem_r2_i8
  · exact kmem_r2_i10
  · exact kmem_r2_i12
  · exact kmem_r2_i14
  · exact kmem_r3_i0
  · exact kmem_r3_i3
  · exact kmem_r3_i6
  · exact kmem_r3_i9
  · exact kmem_r3_i12
  · exact kmem_r3_i15
  · exact kmem_r3_i18
  · exact kmem_r3_i21
  · exact kmem_r4_i0
  · exact kmem_r4_i4
  · exact kmem_r4_i8
  · exact kmem_r4_i12
  · exact kmem_r4_i16
  · exact kmem_r4_i20
  · exact kmem_r4_i24
  · exact kmem_r4_i28
  · exact kmem_v7_k0
  · exact kmem_v7_k1
  · exact kmem_v7_k2
  · exact kmem_v7_k3
  · exact kmem_v7_k4
  · exact kmem_v7_k5
  · exact kmem_v7_k6
  · exact kmem_v7_k7
  · exact kmem_v4_k0
  · exact kmem_v4_k1
  · exact kmem_v4_k2
  · exact kmem_v4_k3
  · exact kmem_v4_k4
  · exact kmem_v4_k5
  · exact kmem_v4_k6
  · exact kmem_v4_k7
  · exact kmem_r3_i2
  · exact kmem_r3_i4
  · exact kmem_cand

/-- At the all-1/2 stream the node generation produces at least 51
distinct dedup keys. -/
theorem numNodes_ge_51 : 51 ≤ numNodes halfStream 1000 := by
  have hsub : L51.toFinset ⊆ ((networkPoints halfStream 1000).map jsKey).toFinset := by
    intro a ha
    rw [List.mem_toFinset] at ha ⊢
    exact L51_sub a ha
  have hcard := Finset.card_le_card hsub
  rw [List.card_toFinset, List.card_toFinset] at hcard
  have hL : L51.dedup.length = 51 := by decide
  unfold numNodes
  omega

/-- C8 counterexample: for particleCount 1000, whose target node count
is min(floor(1000 / 20), 200) = 50, node generation on the concrete
random stream whose every draw is 1/2 yields at least 51 deduplicated
nodes, so the claimed range of 1 to 50 nodes is violated. -/
theorem internal_network_counterexample :
    ¬ (1 ≤ numNodes halfStream 1000 ∧ numNodes halfStream 1000 ≤ 50) := by
  have := numNodes_ge_51
  omega

/-- C8 (amended): for a regular-octagon boundary of radius 8 and target
node count 50 (particleCount 1000), node generation returns between 51
and 121 deduplicated nodes — always more than the 50 targeted, the
ring and vertex strategies alone contributing 96 points before
deduplication (at least 51 distinct keys shown on a concrete random
stream, at most 121 for every stream); every generated point satisfies
the inside-boundary test; and the edge-derivation step (deduplicated
triangle edges) returns a non-empty edge set whenever the Delaunay
triangulation (the external Delaunator library) returns at least one
triangle. -/
theorem internal_network_scenario :
    (∀ (rand : ℕ → ℝ) (p : ℝ × ℝ), p ∈ networkPoints rand 1000 →
        isInsideOctagon p.1 p.2) ∧
    (∀ rand : ℕ → ℝ, numNodes rand 1000 ≤ 121) ∧
    51 ≤ numNodes halfStream 1000 ∧
    (∀ tris : List (ℕ × ℕ × ℕ), tris ≠ [] → edgeKeys tris ≠ []) := by
  refine ⟨fun rand p h => networkPoints_inside rand 1000 p h,
    numNodes_le_121, numNodes_ge_51, ?_⟩
  intro tris hne
  cases tris with
  | nil => exact absurd rfl hne
  | cons t rest =>
    intro hempty
    have hmem : edgeKey t.1 t.2.1 ∈ edgeKeys (t :: rest) := by
      unfold edgeKeys
      refine List.mem_dedup.mpr ?_
      refine List.mem_flatMap.mpr ⟨t, List.mem_cons_self t rest, ?_⟩
      simp
    rw [hempty] at hmem
    exact absurd hmem (List.not_mem_nil _)

/-- Witness for the amended C8: the concrete candidate point and a
one-triangle triangulation discharge the hypotheses. -/
theorem internal_network_scenario_witness :
    ((-(12/5), (0:ℝ)) ∈ networkPoints halfStream 1000) ∧
    (([((0:ℕ), (1:ℕ), (2:ℕ))] : List (ℕ × ℕ × ℕ)) ≠ []) ∧
    isInsideOctagon (-(12/5) : ℝ) (0 : ℝ) ∧
    edgeKeys [((0:ℕ), (1:ℕ), (2:ℕ))] ≠ [] :=
  ⟨mem_candidate, by simp,
   internal_network_scenario.1 halfStream (-(12/5), 0) mem_candidate,
   internal_network_scenario.2.2.2 [(0, 1, 2)] (by simp)⟩

/-- Witness for C9: the singleton pool with the concrete particle; its
position and velocity are unchanged by the empty-path update. -/
theorem flow_empty_paths_witness :
    ([flowP0][0]? = some flowP0) ∧
    ((updateFlowParticles env0 [] 1 0 1 [flowP0])[0]? =
      some (updateFlowParticle env0 [] 1 0 1 0 flowP0 0).1) ∧
    ((updateFlowParticle env0 [] 1 0 1 0 flowP0 0).1.position = flowP0.position ∧
     (updateFlowParticle env0 [] 1 0 1 0 flowP0 0).1.velocity = flowP0.velocity) :=
  ⟨rfl, rfl,
   (flow_empty_paths env0).2 1 0 1 [flowP0] 0 flowP0 _ rfl rfl⟩

end NNViz
